import Mathlib

/-! # Verification development for the golang-samples snippets

A shallow embedding of the sample functions

* `listConsistencyGroup`  (compute/disks/consistency_group_list.go)
* `startReplication`      (compute/disks/start_replication.go)
* `grantAccessToDataset`  (bigquery/bigquery_access_quickstart/grant_access_to_dataset.go)
* `testCreateWorkflow`, `testCleanup` (workflows/execute/quickstart_test.go)
* `TestExecuteWorkflow`   (workflows/execute_workflow_test.go)
* `TestRevokeTableAccessPolicies`, `TestRevokeViewAccessPolicies`
  (bigquery/bigquery_access_quickstart/revoke_access_table_or_view_test.go)

Conventions of the embedding.

* Go strings are Lean `String`s.
* A Go `error` value that is not nil is a `GoError`; a result of type `error`
  is an `Option GoError` (`none` is nil) and a result `(T, error)` is an
  `Except GoError T`.
* The cloud SDK is an environment record: each SDK call is a field that gives
  the result of the call.  The sample functions are pure functions of that record.
* An `io.Writer` is the list of the writes made to it, in order; every
  `fmt.Fprintf` makes one write.
* Calls made to the SDK are recorded in a call log, in program order.
-/

namespace GolangSamples

/-! ## Errors -/

/-- Non-nil Go error values.  `sdk id` is an error value produced by a library
call, taken as opaque and told apart by `id`: the chain such a value may carry inside
the library is not modelled.  `iteratorDone` is the sentinel `iterator.Done`,
`deadlineExceeded` is the sentinel `context.DeadlineExceeded`, `wrapError msg inner`
is the value built by `fmt.Errorf` with a `%w` verb and `errorString msg` the value
built by `fmt.Errorf` without one. -/
inductive GoError where
  | sdk (id : String)
  | iteratorDone
  | deadlineExceeded
  | wrapError (msg : String) (inner : GoError)
  | errorString (msg : String)
  deriving DecidableEq, Repr

namespace GoError

/-- The method `Error()`. -/
def Error : GoError → String
  | sdk id => id
  | iteratorDone => "no more items in iterator"
  | deadlineExceeded => "context deadline exceeded"
  | wrapError msg _ => msg
  | errorString msg => msg

end GoError

/-! ## Formatting -/

/-- Rendering of the operands left over when the format is exhausted
(`%!(EXTRA string=a, string=b)`). -/
def extraOperands : List String → List Char
  | [] => []
  | a :: rest =>
    "%!(EXTRA ".data ++ ("string=" ++ a).data ++
      (rest.map (fun b => (", string=" ++ b).data)).flatten ++ [')']

/-- The formatting loop of `fmt.Sprintf` over string operands.  The verbs `%s`, `%v`
and `%w` print the next operand verbatim and `%%` prints a percent sign; these are
the verbs of the formats modelled here, none of which has a flag or a width.  A verb
with no operand left prints `%!v(MISSING)`, any other verb is rendered as a verb not
defined for strings, `%!d(string=..)`, and a format that ends in `%` prints
`%!(NOVERB)`. -/
def sprintfChars : List Char → List String → List Char
  | [], args => extraOperands args
  | c :: rest, args =>
    if c = '%' then
      match rest with
      | [] => "%!(NOVERB)".data
      | v :: rest' =>
        if v = '%' then '%' :: sprintfChars rest' args
        else if v = 's' ∨ v = 'v' ∨ v = 'w' then
          match args with
          | a :: args' => a.data ++ sprintfChars rest' args'
          | [] => ['%', '!', v] ++ "(MISSING)".data ++ sprintfChars rest' []
        else
          match args with
          | a :: args' =>
            ['%', '!', v] ++ "(string=".data ++ a.data ++ [')'] ++ sprintfChars rest' args'
          | [] => ['%', '!', v] ++ "(MISSING)".data ++ sprintfChars rest' []
    else c :: sprintfChars rest args

/-- The function `fmt.Sprintf` on string operands. -/
def Sprintf (format : String) (args : List String) : String :=
  ⟨sprintfChars format.data args⟩

/-- The function `fmt.Errorf` with a format that ends in `%w` and one error operand. -/
def ErrorfW (format : String) (err : GoError) : GoError :=
  .wrapError (Sprintf format [err.Error]) err

/-- The function `fmt.Errorf` with a format without `%w` and one error operand. -/
def ErrorfV (format : String) (err : GoError) : GoError :=
  .errorString (Sprintf format [err.Error])

/-- An `io.Writer`: the writes made so far, oldest first. -/
abbrev Writer := List String

/-- The function `fmt.Fprintf`: one write of the formatted text. -/
def Fprintf (w : Writer) (format : String) (args : List String) : Writer :=
  w ++ [Sprintf format args]

/-! ## strings.Contains -/

/-- Whether `p` is a prefix of `s`. -/
def hasPrefixChars : List Char → List Char → Bool
  | [], _ => true
  | _ :: _, [] => false
  | a :: p, b :: s => a == b && hasPrefixChars p s

/-- Whether `sub` occurs in `s` at some offset. -/
def containsChars (sub : List Char) : List Char → Bool
  | [] => hasPrefixChars sub []
  | c :: s => hasPrefixChars sub (c :: s) || containsChars sub s

/-- The function `strings.Contains(s, substr)`. -/
def stringsContains (s substr : String) : Bool :=
  containsChars substr.data s.data

/-! ## compute/disks/consistency_group_list.go -/

/-- The fields of `computepb.Disk` the sample reads. -/
structure Disk where
  Name : Option String
  ResourcePolicies : List String
  deriving DecidableEq, Repr

/-- The getter `GetName`. -/
def Disk.GetName (d : Disk) : String := d.Name.getD ""

/-- The getter `GetResourcePolicies`. -/
def Disk.GetResourcePolicies (d : Disk) : List String := d.ResourcePolicies

/-- The request `computepb.ListRegionDisksRequest`. -/
structure ListRegionDisksRequest where
  Project : String
  Region : String
  deriving DecidableEq, Repr

/-- The region-disks part of the compute SDK: the result of
`compute.NewRegionDisksRESTClient` and, for a request, the results of the
successive `it.Next()` calls of the iterator `disksClient.List` returns.  After
the last listed result `Next` returns `iterator.Done`. -/
structure RegionDisksSDK where
  NewRegionDisksRESTClient : Except GoError Unit
  List : ListRegionDisksRequest → List (Except GoError Disk)

/-- What a sample function leaves behind: the writes to `w` and the returned error. -/
structure Outcome where
  out : Writer
  err : Option GoError
  deriving DecidableEq, Repr

/-- The inner loop of `listConsistencyGroup` (lines 57-61): one line per
policy of the disk that contains `groupName`. -/
def printDisk (groupName : String) (disk : Disk) : List String → Writer → Writer
  | [], w => w
  | diskPolicy :: rest, w =>
    if stringsContains diskPolicy groupName then
      printDisk groupName disk rest (Fprintf w "- %s\n" [disk.GetName])
    else
      printDisk groupName disk rest w

/-- The outer loop of `listConsistencyGroup` (lines 48-62) over the results of `it.Next()`. -/
def listLoop (groupName : String) : List (Except GoError Disk) → Writer → Outcome
  | [], w => ⟨w, none⟩
  | .error err :: _, w =>
    if err = GoError.iteratorDone then ⟨w, none⟩
    else ⟨w, some err⟩
  | .ok disk :: rest, w =>
    listLoop groupName rest (printDisk groupName disk disk.GetResourcePolicies w)

/-- The function `listConsistencyGroup`. -/
def listConsistencyGroup (sdk : RegionDisksSDK) (w : Writer)
    (projectID region groupName : String) : Outcome :=
  match sdk.NewRegionDisksRESTClient with
  | .error err => ⟨w, some (ErrorfW "NewResourcePoliciesRESTClient: %w" err)⟩
  | .ok _ =>
    let req : ListRegionDisksRequest := { Project := projectID, Region := region }
    listLoop groupName (sdk.List req) w

/-- What a sample function that calls the SDK leaves behind: the writes to `w`,
the returned error and the SDK calls made, in program order. -/
structure Run (Call : Type) where
  out : Writer
  err : Option GoError
  calls : List Call

/-! ## compute/disks/start_replication.go -/

/-- The message `computepb.DisksStartAsyncReplicationRequest`. -/
structure DisksStartAsyncReplicationRequest where
  AsyncSecondaryDisk : Option String
  deriving DecidableEq, Repr

/-- The request `computepb.StartAsyncReplicationDiskRequest`. -/
structure StartAsyncReplicationDiskRequest where
  Project : String
  Zone : String
  Disk : String
  DisksStartAsyncReplicationRequestResource : Option DisksStartAsyncReplicationRequest
  deriving DecidableEq, Repr

/-- A handle on a long-running operation (`*compute.Operation`). -/
structure Operation where
  id : String
  deriving DecidableEq, Repr

/-- The disks part of the compute SDK: the results of `compute.NewDisksRESTClient`,
of `disksClient.StartAsyncReplication` and of `op.Wait`. -/
structure DisksSDK where
  NewDisksRESTClient : Except GoError Unit
  StartAsyncReplication : StartAsyncReplicationDiskRequest → Except GoError Operation
  Wait : Operation → Option GoError

/-- The SDK calls `startReplication` makes. -/
inductive DisksCall where
  | NewDisksRESTClient
  | StartAsyncReplication (req : StartAsyncReplicationDiskRequest)
  | Wait (op : Operation)
  | Close
  deriving DecidableEq, Repr

/-- The request `startReplication` builds (lines 45-54). -/
def startReplicationRequest (projectID zone diskName primaryDiskName primaryZone : String) :
    StartAsyncReplicationDiskRequest :=
  let secondaryFullDiskName := Sprintf "projects/%s/zones/%s/disks/%s" [projectID, zone, diskName]
  { Project := projectID
    Zone := primaryZone
    Disk := primaryDiskName
    DisksStartAsyncReplicationRequestResource :=
      some { AsyncSecondaryDisk := some secondaryFullDiskName } }

/-- The function `startReplication`.  The deferred `disksClient.Close()` runs on
every return after the client was built. -/
def startReplication (sdk : DisksSDK) (w : Writer)
    (projectID zone diskName primaryDiskName primaryZone : String) : Run DisksCall :=
  match sdk.NewDisksRESTClient with
  | .error err =>
    { out := w, err := some (ErrorfW "NewDisksRESTClient: %w" err),
      calls := [.NewDisksRESTClient] }
  | .ok _ =>
    let req := startReplicationRequest projectID zone diskName primaryDiskName primaryZone
    match sdk.StartAsyncReplication req with
    | .error err =>
      { out := w, err := some (ErrorfW "unable to create disk: %w" err),
        calls := [.NewDisksRESTClient, .StartAsyncReplication req, .Close] }
    | .ok op =>
      match sdk.Wait op with
      | some err =>
        { out := w, err := some (ErrorfW "unable to wait for the operation: %w" err),
          calls := [.NewDisksRESTClient, .StartAsyncReplication req, .Wait op, .Close] }
      | none =>
        { out := Fprintf w "Replication started\n" [], err := none,
          calls := [.NewDisksRESTClient, .StartAsyncReplication req, .Wait op, .Close] }

/-! ## bigquery/bigquery_access_quickstart/grant_access_to_dataset.go -/

/-- The type `bigquery.AccessRole`, a string type. -/
abbrev AccessRole := String

/-- The constant `bigquery.ReaderRole`. -/
def ReaderRole : AccessRole := "READER"

/-- The type `bigquery.EntityType`. -/
inductive EntityType where
  | DomainEntity
  | GroupEmailEntity
  | UserEmailEntity
  | SpecialGroupEntity
  | ViewEntity
  | IAMMemberEntity
  | RoutineEntity
  | DatasetEntity
  deriving DecidableEq, Repr

/-- The fields of `bigquery.AccessEntry` the sample sets. -/
structure AccessEntry where
  Role : AccessRole
  EntityType : EntityType
  Entity : String
  deriving DecidableEq, Repr

/-- The fields of `bigquery.DatasetMetadata` the sample reads. -/
structure DatasetMetadata where
  Access : List AccessEntry
  ETag : String
  deriving DecidableEq, Repr

/-- The fields of `bigquery.DatasetMetadataToUpdate` the sample sets. -/
structure DatasetMetadataToUpdate where
  Access : List AccessEntry
  deriving DecidableEq, Repr

/-- The BigQuery SDK: the results of `bigquery.NewClient` (by project), of
`dataset.Metadata` (by project and dataset) and of `dataset.Update` (by project,
dataset, update and ETag). -/
structure BigQuerySDK where
  NewClient : String → Except GoError Unit
  Metadata : String → String → Except GoError DatasetMetadata
  Update : String → String → DatasetMetadataToUpdate → String → Except GoError DatasetMetadata

/-- The SDK calls `grantAccessToDataset` makes. -/
inductive BigQueryCall where
  | NewClient (projectID : String)
  | Metadata (datasetID : String)
  | Update (datasetID : String) (update : DatasetMetadataToUpdate) (etag : String)
  | Close
  deriving DecidableEq, Repr

/-- The loop of lines 77-79 of `grantAccessToDataset`: one line per access entry. -/
def printAccess : List AccessEntry → Writer → Writer
  | [], w => w
  | access :: rest, w =>
    printAccess rest (Fprintf w "Role %s : %s\n" [access.Role, access.Entity])

/-- The function `grantAccessToDataset`.  The deferred `client.Close()` runs on
every return after the client was built. -/
def grantAccessToDataset (sdk : BigQuerySDK) (w : Writer) (projectID datasetID : String) :
    Run BigQueryCall :=
  match sdk.NewClient projectID with
  | .error err =>
    { out := w, err := some (ErrorfW "bigquery.NewClient: %w" err),
      calls := [.NewClient projectID] }
  | .ok _ =>
    match sdk.Metadata projectID datasetID with
    | .error err =>
      { out := w, err := some (ErrorfW "bigquery.Dataset.Metadata: %w" err),
        calls := [.NewClient projectID, .Metadata datasetID, .Close] }
    | .ok meta =>
      let entityType := EntityType.GroupEmailEntity
      let entityID := "example-analyst-group@google.com"
      let roleType := ReaderRole
      let update : DatasetMetadataToUpdate :=
        { Access := meta.Access ++
            [{ Role := roleType, EntityType := entityType, Entity := entityID }] }
      match sdk.Update projectID datasetID update meta.ETag with
      | .error err =>
        { out := w, err := some err,
          calls := [.NewClient projectID, .Metadata datasetID,
                    .Update datasetID update meta.ETag, .Close] }
      | .ok meta' =>
        let w1 := Fprintf w "Details for Access entries in dataset %v.\n" [datasetID]
        { out := printAccess meta'.Access w1, err := none,
          calls := [.NewClient projectID, .Metadata datasetID,
                    .Update datasetID update meta.ETag, .Close] }

/-! ## workflows/execute/quickstart_test.go

Time is a natural number of nanoseconds, the unit of `time.Duration`.  A call to
`service.Get(..).Do()` takes a latency the environment chooses and the other
statements take no time.  The `select` of the poll loop waits on the timer
`time.After(time.Second * 1)`, which fires one second after the `select` is
entered, and on `timeoutCtx.Done()`, which is closed at the deadline: the case
that becomes ready first is taken, and when both become ready at the same instant
the environment chooses. -/

/-- The constant `time.Second`. -/
def Second : Nat := 1000000000

/-- The constant `time.Minute`. -/
def Minute : Nat := 60 * Second

/-- The fields of `workflows.Workflow` the test uses. -/
structure Workflow where
  Name : String
  SourceContents : String
  State : String
  deriving DecidableEq, Repr

/-- One call `service.Get(workflowName).Do()`: the time it takes and what it returns. -/
structure Fetch where
  latency : Nat
  result : Except GoError Workflow

/-- The environment of the workflows test helpers: the results of
`workflows.NewService`, of `os.ReadFile`, of `service.Create(..).WorkflowId(..).Do()`,
of the k-th `service.Get(..).Do()` (k counts from 0) and of `service.Delete(..).Do()`,
and, for the `select` that follows the k-th fetch, whether the timer case is the one
taken when the timer and the deadline fall on the same instant. -/
structure WorkflowsEnv where
  NewService : Except GoError Unit
  ReadFile : String → Except GoError String
  Create : String → Workflow → String → Option GoError
  Get : Nat → String → Fetch
  Delete : String → Option GoError
  timerFirst : Nat → Bool

/-- The library calls the workflows test helpers make. -/
inductive WorkflowsCall where
  | NewService
  | ReadFile (path : String)
  | Create (parent : String) (workflow : Workflow) (workflowID : String)
  | Get (name : String)
  | Delete (name : String)
  deriving DecidableEq, Repr

/-- What happens in the poll loop: a fetch returned a workflow in state `state`, a
fetch failed, the one-second timer fired (the loop slept one second), the timeout
context was done. -/
inductive PollEvent where
  | fetched (state : String)
  | fetchFailed (err : GoError)
  | slept
  | timedOut
  deriving DecidableEq, Repr

/-- The variables of the poll loop: the clock, the number of fetches made, the
variable `workflow` and the events so far. -/
structure PollState where
  now : Nat
  fetches : Nat
  workflow : Workflow
  events : List PollEvent
  deriving DecidableEq, Repr

/-- The return of the poll loop: the returned error and the variables at the return. -/
structure PollResult where
  err : Option GoError
  final : PollState
  deriving DecidableEq, Repr

/-- The poll loop of `testCreateWorkflow` (lines 104-117), `fuel` bounding the number
of evaluations of the loop condition; `none` when the fuel runs out.  After a failed
fetch the function returns at once and the variable `workflow`, which Go sets to the
nil result of the call, is not read again; the state keeps its value from before. -/
def pollLoop (env : WorkflowsEnv) (workflowName : String) (deadline : Nat) :
    Nat → PollState → Option PollResult
  | 0, _ => none
  | fuel + 1, st =>
    if st.workflow.State ≠ "ACTIVE" then
      let fetch := env.Get st.fetches workflowName
      let now1 := st.now + fetch.latency
      match fetch.result with
      | .error err =>
        some { err := some (ErrorfW "service.Get.Do error: %w" err),
               final := { st with now := now1, fetches := st.fetches + 1,
                                  events := st.events ++ [.fetchFailed err] } }
      | .ok workflow =>
        let timerAt := now1 + Second * 1
        if timerAt < deadline ∨ (timerAt = deadline ∧ env.timerFirst st.fetches = true) then
          pollLoop env workflowName deadline fuel
            { now := timerAt, fetches := st.fetches + 1, workflow := workflow,
              events := st.events ++ [.fetched workflow.State, .slept] }
        else
          some { err := some GoError.deadlineExceeded,
                 final := { now := max now1 deadline, fetches := st.fetches + 1,
                            workflow := workflow,
                            events := st.events ++ [.fetched workflow.State, .timedOut] } }
    else
      some { err := none, final := st }

/-- The resource name `parent` of `testCreateWorkflow` (line 70). -/
def testCreateWorkflow_parent (projectID locationID : String) : String :=
  Sprintf "projects/%s/locations/%s" [projectID, locationID]

/-- The resource name `workflowName` of `testCreateWorkflow` (line 71). -/
def testCreateWorkflow_workflowName (workflowID projectID locationID : String) : String :=
  Sprintf "%s/workflows/%s" [testCreateWorkflow_parent projectID locationID, workflowID]

/-- The return of `testCreateWorkflow`: the returned error, the library calls made
before the poll loop and the poll loop's return when the loop was reached. -/
structure CreateResult where
  err : Option GoError
  calls : List WorkflowsCall
  poll : Option PollResult
  deriving DecidableEq, Repr

/-- The function `testCreateWorkflow`; `start` is the instant the timeout context is
created and the loop entered, `fuel` bounds the evaluations of the loop condition. -/
def testCreateWorkflow (env : WorkflowsEnv) (start fuel : Nat)
    (workflowID projectID locationID : String) : Option CreateResult :=
  let timeout := Minute * 5
  let parent := testCreateWorkflow_parent projectID locationID
  let workflowName := testCreateWorkflow_workflowName workflowID projectID locationID
  match env.NewService with
  | .error err =>
    some { err := some (ErrorfW "workflows.NewService error: %w" err),
           calls := [.NewService], poll := none }
  | .ok _ =>
    match env.ReadFile "../myFirstWorkflow.yaml" with
    | .error err =>
      some { err := some (ErrorfW "os.ReadFile error: %w" err),
             calls := [.NewService, .ReadFile "../myFirstWorkflow.yaml"], poll := none }
    | .ok content =>
      let workflow : Workflow := { Name := workflowName, SourceContents := content, State := "" }
      match env.Create parent workflow workflowID with
      | some err =>
        some { err := some (ErrorfV "service.Create failed to create workflow: %v" err),
               calls := [.NewService, .ReadFile "../myFirstWorkflow.yaml",
                         .Create parent workflow workflowID],
               poll := none }
      | none =>
        match pollLoop env workflowName (start + timeout) fuel
            { now := start, fetches := 0, workflow := workflow, events := [] } with
        | none => none
        | some r =>
          some { err := r.err,
                 calls := [.NewService, .ReadFile "../myFirstWorkflow.yaml",
                           .Create parent workflow workflowID]
                          ++ List.replicate r.final.fetches (.Get workflowName),
                 poll := some r }

/-- The resource name `parent` of `testCleanup` (line 127), the name it deletes. -/
def testCleanup_parent (workflowID projectID locationID : String) : String :=
  Sprintf "projects/%s/locations/%s/workflows/%s" [projectID, locationID, workflowID]

/-- The function `testCleanup`: the returned error and the library calls made. -/
def testCleanup (env : WorkflowsEnv) (workflowID projectID locationID : String) :
    Option GoError × List WorkflowsCall :=
  let parent := testCleanup_parent workflowID projectID locationID
  match env.NewService with
  | .error err => (some (ErrorfW "workflows.NewService error: %w" err), [.NewService])
  | .ok _ =>
    match env.Delete parent with
    | some err =>
      (some (ErrorfV "service.Delete failed to delete workflow: %v" err),
        [.NewService, .Delete parent])
    | none => (none, [.NewService, .Delete parent])

/-! ## workflows/execute_workflow_test.go

The race of `TestExecuteWorkflow` (lines 45-66) is a transition system over the two
goroutines, the channel `chanErr` and the timeout context.  The scheduler and the
environment choose the events: the call `executeWorkflowWithArguments` returns a
value, the ten-minute deadline passes, the spawned goroutine runs its next
statement, the test goroutine runs its next statement.  A statement that cannot
proceed (a `select` with no ready case) leaves the state unchanged, and so does every
event after a panic, which ends the process. -/

/-- The run-time panics of the channel operations. -/
inductive ChanPanic where
  | sendOnClosedChannel
  | closeOfClosedChannel
  deriving DecidableEq, Repr

/-- A channel of `error` values: the buffered values, the capacity and whether it is
closed. -/
structure ErrChan where
  buf : List (Option GoError)
  cap : Nat
  closed : Bool
  deriving DecidableEq, Repr

/-- Where the test goroutine stands: blocked in the `select` (line 58), at
`close(chanErr)` of the deadline case (line 60), at the `t.Fatalf` of the deadline
case (line 61), stopped by a `t.Fatalf` that reported `err` (lines 61 and 64), or
past the `select` with a nil error, at the output check (line 69). -/
inductive MainPc where
  | atSelect
  | atClose
  | atFatalfDeadline
  | failed (err : GoError)
  | atOutputCheck
  deriving DecidableEq, Repr

/-- Where the spawned goroutine stands: inside `executeWorkflowWithArguments`, at the
send of the returned value `v` (line 53), at `close(chanErr)` (line 54), finished. -/
inductive BgPc where
  | calling
  | atSend (v : Option GoError)
  | atClose
  | done
  deriving DecidableEq, Repr

/-- The state of the race. -/
structure RaceState where
  main : MainPc
  bg : BgPc
  chanErr : ErrChan
  deadlinePassed : Bool
  panicked : Option ChanPanic
  deriving DecidableEq, Repr

/-- The events of the race; `main preferDone` carries the choice of the `select` when
both of its cases are ready. -/
inductive RaceEvent where
  | callReturns (v : Option GoError)
  | deadline
  | bg
  | main (preferDone : Bool)
  deriving DecidableEq, Repr

/-- The state after line 55: `chanErr := make(chan error, 1)`, the goroutine spawned
and inside the call, the test goroutine at the `select`. -/
def raceInit : RaceState :=
  { main := .atSelect, bg := .calling, chanErr := { buf := [], cap := 1, closed := false },
    deadlinePassed := false, panicked := none }

/-- One statement of the spawned goroutine (lines 52-55). -/
def bgStep (s : RaceState) : RaceState :=
  match s.bg with
  | .atSend v =>
    if s.chanErr.closed then { s with panicked := some .sendOnClosedChannel }
    else if s.chanErr.buf.length < s.chanErr.cap then
      { s with chanErr := { s.chanErr with buf := s.chanErr.buf ++ [v] }, bg := .atClose }
    else s
  | .atClose =>
    if s.chanErr.closed then { s with panicked := some .closeOfClosedChannel }
    else { s with chanErr := { s.chanErr with closed := true }, bg := .done }
  | _ => s

/-- One statement of the test goroutine (lines 58-66). -/
def mainStep (s : RaceState) (preferDone : Bool) : RaceState :=
  match s.main with
  | .atSelect =>
    let doneReady := s.deadlinePassed
    let recvReady := !s.chanErr.buf.isEmpty || s.chanErr.closed
    if doneReady && (!recvReady || preferDone) then { s with main := .atClose }
    else if recvReady then
      match s.chanErr.buf with
      | some err :: rest =>
        { s with chanErr := { s.chanErr with buf := rest }, main := .failed err }
      | none :: rest =>
        { s with chanErr := { s.chanErr with buf := rest }, main := .atOutputCheck }
      | [] => { s with main := .atOutputCheck }
    else s
  | .atClose =>
    if s.chanErr.closed then { s with panicked := some .closeOfClosedChannel }
    else { s with chanErr := { s.chanErr with closed := true }, main := .atFatalfDeadline }
  | .atFatalfDeadline => { s with main := .failed GoError.deadlineExceeded }
  | _ => s

/-- One event of the race. -/
def raceStep (s : RaceState) (ev : RaceEvent) : RaceState :=
  if s.panicked.isSome then s
  else
    match ev with
    | .callReturns v =>
      match s.bg with
      | .calling => { s with bg := .atSend v }
      | _ => s
    | .deadline => { s with deadlinePassed := true }
    | .bg => bgStep s
    | .main preferDone => mainStep s preferDone

/-- The state after a schedule of events. -/
def raceRun (s : RaceState) (schedule : List RaceEvent) : RaceState :=
  schedule.foldl raceStep s

/-! ## bigquery/bigquery_access_quickstart/revoke_access_table_or_view_test.go

The two tests are functions of an environment that gives the result of every call
they make.  The helpers `testClient` and `testCleanup` of the package and the sample
`revokeTableOrViewAccessPolicies` are not part of the sources at hand: their results
are fields of the environment and the calls to them are logged with their arguments.
The random prefix the tests draw is the argument `prefixer`. -/

/-- One binding of an `iam.Policy`: a role and its members. -/
structure Binding where
  Role : String
  Members : List String
  deriving DecidableEq, Repr

/-- The type `iam.Policy`, as its list of bindings. -/
structure Policy where
  Bindings : List Binding
  deriving DecidableEq, Repr

/-- The constant `iam.Viewer`. -/
def iamViewer : String := "roles/viewer"

/-- The bindings after `Policy.Add`: the member joins the first binding of the role
unless it is in it, and a binding is appended when the role has none. -/
def addMember (member role : String) : List Binding → List Binding
  | [] => [{ Role := role, Members := [member] }]
  | b :: rest =>
    if b.Role = role then
      (if member ∈ b.Members then b else { b with Members := b.Members ++ [member] }) :: rest
    else b :: addMember member role rest

/-- The method `Policy.Add(member, role)`. -/
def Policy.Add (p : Policy) (member role : String) : Policy :=
  { Bindings := addMember member role p.Bindings }

/-- The method `Policy.HasRole(member, role)`. -/
def Policy.HasRole (p : Policy) (member role : String) : Bool :=
  p.Bindings.any (fun b => b.Role = role ∧ member ∈ b.Members)

/-- The fields of `bigquery.FieldSchema` the tests set (`FieldType` is the field `Type`). -/
structure FieldSchema where
  Name : String
  FieldType : String
  Required : Bool
  deriving DecidableEq, Repr

/-- The fields of `bigquery.TableMetadata` the tests set. -/
structure TableMetadata where
  Schema : List FieldSchema
  ViewQuery : String
  deriving DecidableEq, Repr

/-- The environment of the revoke tests: the results of `testClient`, of
`dataset.Create` (by dataset), of `Table.Create` (by dataset, table and metadata), of
`IAM().Policy` and `IAM().SetPolicy` (by dataset and table), and of
`revokeTableOrViewAccessPolicies` (by project, dataset and resource): what it writes to
the buffer and the error it returns. -/
structure RevokeTestEnv where
  testClient : Except GoError Unit
  DatasetCreate : String → Option GoError
  TableCreate : String → String → TableMetadata → Option GoError
  IAMPolicy : String → String → Except GoError Policy
  IAMSetPolicy : String → String → Policy → Option GoError
  revokeTableOrViewAccessPolicies : String → String → String → Writer × Option GoError

/-- The calls the revoke tests make. -/
inductive RevokeTestCall where
  | testClient
  | DatasetCreate (datasetName : String)
  | TableCreate (datasetName tableID : String) (metadata : TableMetadata)
  | IAMPolicy (datasetName tableID : String)
  | IAMSetPolicy (datasetName tableID : String) (policy : Policy)
  | revokeTableOrViewAccessPolicies (projectID datasetName resourceName : String)
  | testCleanup (datasetName : String)
  | Close
  deriving DecidableEq, Repr

/-- The table or view an IAM call is made on. -/
def RevokeTestCall.iamTarget : RevokeTestCall → Option String
  | .IAMPolicy _ tableID => some tableID
  | .IAMSetPolicy _ tableID _ => some tableID
  | _ => none

/-- The failures a test reports: `t.Fatalf(format, err)`, `t.Error(err)` and the
`t.Errorf` of the output check with its operands. -/
inductive TestFailure where
  | Fatalf (format : String) (err : GoError)
  | Error (err : GoError)
  | Errorf (format got want : String)
  deriving DecidableEq, Repr

/-- A run of a test: the calls made, in order, and the failures reported. -/
structure TestRun where
  calls : List RevokeTestCall
  failures : List TestFailure
  deriving DecidableEq, Repr

/-- The end of a revoke test once both `defer`s are registered: `testCleanup` runs,
then `client.Close`; a `t.Fatalf` ends the test the same way. -/
def endOfTest (datasetName : String) (calls : List RevokeTestCall)
    (failures : List TestFailure) : TestRun :=
  { calls := calls ++ [.testCleanup datasetName, .Close], failures := failures }

/-- Lines 80-86 and 161-167: the call of `revokeTableOrViewAccessPolicies` on
`resourceName` and the check of its output. -/
def revokeAndCheck (env : RevokeTestEnv) (projectID datasetName resourceName : String)
    (calls : List RevokeTestCall) : TestRun :=
  let result := env.revokeTableOrViewAccessPolicies projectID datasetName resourceName
  let calls1 := calls ++ [.revokeTableOrViewAccessPolicies projectID datasetName resourceName]
  let failures1 : List TestFailure :=
    match result.2 with
    | some err => [.Error err]
    | none => []
  let got := String.join result.1
  let want := Sprintf "Details for Access entries in table or view %v." [resourceName]
  if !stringsContains got want then
    endOfTest datasetName calls1
      (failures1 ++ [.Errorf "viewTableAccessPolicies: expected %q to contain %q" got want])
  else endOfTest datasetName calls1 failures1

/-- Lines 64-78 and 145-159: read the IAM policy of `tableID`, add the analyst group
as viewer, set the policy on `tableID`; then the revoke call on `resourceName`. -/
def addBindingThenRevoke (env : RevokeTestEnv) (projectID datasetName tableID
    resourceName : String) (calls : List RevokeTestCall) : TestRun :=
  match env.IAMPolicy datasetName tableID with
  | .error err =>
    endOfTest datasetName (calls ++ [.IAMPolicy datasetName tableID])
      [.Fatalf "Failed to get policy: %v" err]
  | .ok policy =>
    let analystEmail := "example-analyst-group@google.com"
    let policy1 := policy.Add (Sprintf "group:%s" [analystEmail]) iamViewer
    match env.IAMSetPolicy datasetName tableID policy1 with
    | some err =>
      endOfTest datasetName
        (calls ++ [.IAMPolicy datasetName tableID, .IAMSetPolicy datasetName tableID policy1])
        [.Fatalf "Failed to set policy: %v" err]
    | none =>
      revokeAndCheck env projectID datasetName resourceName
        (calls ++ [.IAMPolicy datasetName tableID, .IAMSetPolicy datasetName tableID policy1])

/-- The test `TestRevokeTableAccessPolicies`: the policy is read from and set on
`table` (lines 65 and 75) and the revoke call is made on `tableName` (line 80). -/
def TestRevokeTableAccessPolicies (env : RevokeTestEnv) (projectID prefixer : String) :
    TestRun :=
  let topic := Sprintf "%s_revoke_access_to_table" [prefixer]
  let datasetName := Sprintf "%s_dataset" [topic]
  let tableName := Sprintf "%s_table" [topic]
  match env.testClient with
  | .error err =>
    { calls := [.testClient], failures := [.Fatalf "bigquery.NewClient: %v" err] }
  | .ok _ =>
    match env.DatasetCreate datasetName with
    | some err =>
      endOfTest datasetName [.testClient, .DatasetCreate datasetName]
        [.Fatalf "Failed to create dataset: %v" err]
    | none =>
      let tableMetadata : TableMetadata := { Schema := [], ViewQuery := "" }
      match env.TableCreate datasetName tableName tableMetadata with
      | some err =>
        endOfTest datasetName
          [.testClient, .DatasetCreate datasetName,
           .TableCreate datasetName tableName tableMetadata]
          [.Fatalf "Failed to create table: %v" err]
      | none =>
        addBindingThenRevoke env projectID datasetName tableName tableName
          [.testClient, .DatasetCreate datasetName,
           .TableCreate datasetName tableName tableMetadata]

/-- The test `TestRevokeViewAccessPolicies`: the policy is read from and set on
`table` (lines 146 and 156), the handle of `tableName`, and the revoke call is made on
`viewName` (line 161). -/
def TestRevokeViewAccessPolicies (env : RevokeTestEnv) (projectID prefixer : String) :
    TestRun :=
  let topic := Sprintf "%s_revoke_access_to_view" [prefixer]
  let datasetName := Sprintf "%s_dataset" [topic]
  let tableName := Sprintf "%s_table" [topic]
  let viewName := Sprintf "%s_view" [topic]
  match env.testClient with
  | .error err =>
    { calls := [.testClient], failures := [.Fatalf "bigquery.NewClient: %v" err] }
  | .ok _ =>
    match env.DatasetCreate datasetName with
    | some err =>
      endOfTest datasetName [.testClient, .DatasetCreate datasetName]
        [.Fatalf "Failed to create dataset: %v" err]
    | none =>
      let sampleSchema : List FieldSchema := [{ Name := "id", FieldType := "INTEGER", Required := true }]
      let tableMetaData : TableMetadata := { Schema := sampleSchema, ViewQuery := "" }
      match env.TableCreate datasetName tableName tableMetaData with
      | some err =>
        endOfTest datasetName
          [.testClient, .DatasetCreate datasetName,
           .TableCreate datasetName tableName tableMetaData]
          [.Fatalf "Failed to create table: %v" err]
      | none =>
        let viewMetadata : TableMetadata :=
          { Schema := [],
            ViewQuery := Sprintf "SELECT * FROM `%s.%s`" [datasetName, tableName] }
        match env.TableCreate datasetName viewName viewMetadata with
        | some err =>
          endOfTest datasetName
            [.testClient, .DatasetCreate datasetName,
             .TableCreate datasetName tableName tableMetaData,
             .TableCreate datasetName viewName viewMetadata]
            [.Fatalf "Failed to create view: %v" err]
        | none =>
          addBindingThenRevoke env projectID datasetName tableName viewName
            [.testClient, .DatasetCreate datasetName,
             .TableCreate datasetName tableName tableMetaData,
             .TableCreate datasetName viewName viewMetadata]

/-! ## Example environments and auxiliary predicates -/

/-- Two disks in a region: one in the group `grp`, one with no policy. -/
def exampleDisksSDK : RegionDisksSDK where
  NewRegionDisksRESTClient := .ok ()
  List := fun _ =>
    [.ok { Name := some "disk-a", ResourcePolicies := ["projects/p/regions/r/resourcePolicies/grp"] },
     .ok { Name := some "disk-b", ResourcePolicies := [] }]

/-- A dataset with one owner entry; every call succeeds and the update is echoed back. -/
def exampleBigQuerySDK : BigQuerySDK where
  NewClient := fun _ => .ok ()
  Metadata := fun _ _ =>
    .ok { Access := [{ Role := "OWNER", EntityType := .UserEmailEntity, Entity := "owner@example.com" }],
          ETag := "etag-1" }
  Update := fun _ _ update _ => .ok { Access := update.Access, ETag := "etag-2" }

/-- The three SDK steps of `startReplication` all succeed, the request giving `op`. -/
def ReplicationSucceeds (sdk : DisksSDK) (req : StartAsyncReplicationDiskRequest)
    (op : Operation) : Prop :=
  sdk.NewDisksRESTClient = .ok () ∧ sdk.StartAsyncReplication req = .ok op ∧ sdk.Wait op = none

/-- Every call succeeds; the operation is `op-1`. -/
def replicationOkSDK : DisksSDK where
  NewDisksRESTClient := .ok ()
  StartAsyncReplication := fun _ => .ok { id := "op-1" }
  Wait := fun _ => none

/-- The request is accepted and the wait on the operation fails. -/
def replicationWaitFailsSDK : DisksSDK where
  NewDisksRESTClient := .ok ()
  StartAsyncReplication := fun _ => .ok { id := "op-1" }
  Wait := fun _ => some (.sdk "operation failed")

/-- An environment in which every call succeeds and the second fetch finds the
workflow active. -/
def exampleWorkflowsEnv : WorkflowsEnv where
  NewService := .ok ()
  ReadFile := fun _ => .ok "main:\n  steps: []"
  Create := fun _ _ _ => none
  Get := fun k name =>
    { latency := 200000000,
      result := .ok { Name := name, SourceContents := "",
                      State := if k = 0 then "CREATING" else "ACTIVE" } }
  Delete := fun _ => none
  timerFirst := fun _ => true

/-- The events of a run of the loop over `states`: for each state a fetch that
returned it followed by the one-second sleep. -/
def sleptAfter (states : List String) : List PollEvent :=
  states.flatMap (fun s => [PollEvent.fetched s, PollEvent.slept])

/-- Every call succeeds at once and every fetch finds the workflow active. -/
def activeAtOnceEnv : WorkflowsEnv where
  NewService := .ok ()
  ReadFile := fun _ => .ok "main:\n  steps: []"
  Create := fun _ _ _ => none
  Get := fun _ name =>
    { latency := 0, result := .ok { Name := name, SourceContents := "", State := "ACTIVE" } }
  Delete := fun _ => none
  timerFirst := fun _ => true

/-- Every call succeeds; a fetch takes 299.5 seconds and finds the workflow active. -/
def lateActiveEnv : WorkflowsEnv where
  NewService := .ok ()
  ReadFile := fun _ => .ok "main:\n  steps: []"
  Create := fun _ _ _ => none
  Get := fun _ name =>
    { latency := 299500000000,
      result := .ok { Name := name, SourceContents := "", State := "ACTIVE" } }
  Delete := fun _ => none
  timerFirst := fun _ => true

/-- Every call succeeds at once, the workflow stays in state "CREATING" and the timer
wins the tie with the deadline. -/
def neverActiveEnv : WorkflowsEnv where
  NewService := .ok ()
  ReadFile := fun _ => .ok "main:\n  steps: []"
  Create := fun _ _ _ => none
  Get := fun _ name =>
    { latency := 0, result := .ok { Name := name, SourceContents := "", State := "CREATING" } }
  Delete := fun _ => none
  timerFirst := fun _ => true

/-- The lines `listConsistencyGroup` owes to one disk: its line once per policy of the
disk that contains `groupName`, in the order of the policies. -/
def groupLines (groupName : String) (disk : Disk) : List String :=
  (disk.GetResourcePolicies.filter (fun p => stringsContains p groupName)).map
    (fun _ => "- " ++ disk.GetName ++ "\n")

/-- A region with three disks: `disk-a` has two policies that contain `grp`, `disk-b`
has none, `disk-c` has one among two. -/
def threeDisksSDK : RegionDisksSDK where
  NewRegionDisksRESTClient := .ok ()
  List := fun _ =>
    [{ Name := some "disk-a",
       ResourcePolicies := ["projects/p/regions/r/resourcePolicies/grp",
                            "projects/p/regions/r/resourcePolicies/grp-backup"] },
     { Name := some "disk-b", ResourcePolicies := [] },
     { Name := some "disk-c",
       ResourcePolicies := ["projects/p/regions/r/resourcePolicies/other",
                            "projects/p/regions/r/resourcePolicies/grp"] }].map Except.ok

/-- Every call of the revoke tests succeeds, every resource has an empty IAM policy
and `revokeTableOrViewAccessPolicies` writes the expected line and returns nil. -/
def okRevokeEnv : RevokeTestEnv where
  testClient := .ok ()
  DatasetCreate := fun _ => none
  TableCreate := fun _ _ _ => none
  IAMPolicy := fun _ _ => .ok { Bindings := [] }
  IAMSetPolicy := fun _ _ _ => none
  revokeTableOrViewAccessPolicies := fun _ _ resourceName =>
    ([Sprintf "Details for Access entries in table or view %v.\n" [resourceName]], none)

/-- Every call succeeds, the first fetch finds the workflow in state "CREATING" and
the second fetch fails. -/
def secondFetchFailsEnv : WorkflowsEnv where
  NewService := .ok ()
  ReadFile := fun _ => .ok "main:\n  steps: []"
  Create := fun _ _ _ => none
  Get := fun k name =>
    { latency := 200000000,
      result := if k = 0 then .ok { Name := name, SourceContents := "", State := "CREATING" }
                else .error (.sdk "googleapi: Error 503: unavailable") }
  Delete := fun _ => none
  timerFirst := fun _ => true

/-- The instant the k-th fetch of the poll loop starts (k counts from 0) when every
earlier fetch was followed by the one-second sleep: the loop starts at `start`, and
each earlier iteration took the latency of its fetch and one second. -/
def fetchStart (env : WorkflowsEnv) (workflowName : String) (start : Nat) : Nat → Nat
  | 0 => start
  | k + 1 => fetchStart env workflowName start k + (env.Get k workflowName).latency + Second * 1

/-- The instant the one-second timer of the `select` after the k-th fetch fires: one
second after that fetch returned. -/
def timerInstant (env : WorkflowsEnv) (workflowName : String) (start k : Nat) : Nat :=
  fetchStart env workflowName start k + (env.Get k workflowName).latency + Second * 1

/-- In the `select` after the k-th fetch the timer comes first: it fires before the
deadline, or at the instant of the deadline with the tie going to the timer. -/
def TimerFirst (env : WorkflowsEnv) (workflowName : String) (start deadline k : Nat) : Prop :=
  timerInstant env workflowName start k < deadline ∨
  (timerInstant env workflowName start k = deadline ∧ env.timerFirst k = true)

/-- In the `select` after the k-th fetch the timeout comes first: the deadline is
before the instant of the timer, or at that instant with the tie going to the
timeout. -/
def TimeoutFirst (env : WorkflowsEnv) (workflowName : String) (start deadline k : Nat) : Prop :=
  deadline < timerInstant env workflowName start k ∨
  (timerInstant env workflowName start k = deadline ∧ env.timerFirst k = false)

/-- The state the k-th fetch returns (the empty string when that fetch fails). -/
def fetchedState (env : WorkflowsEnv) (workflowName : String) (k : Nat) : String :=
  match (env.Get k workflowName).result with
  | .ok workflow => workflow.State
  | .error _ => ""

/-- The events of the fetches `first`, .., `first + count - 1` when each is followed by
the one-second sleep. -/
def sleptThrough (env : WorkflowsEnv) (workflowName : String) (first count : Nat) :
    List PollEvent :=
  (List.range' first count).flatMap
    (fun k => [PollEvent.fetched (fetchedState env workflowName k), PollEvent.slept])

/-- The states of the race in which the deadline has not passed and nothing went
wrong: no panic, the test goroutine not in the deadline case, and `chanErr` closed
only by the finished goroutine. -/
def BeforeDeadline (s : RaceState) : Prop :=
  s.deadlinePassed = false ∧ s.panicked = none ∧ s.main ≠ .atClose ∧
  s.main ≠ .atFatalfDeadline ∧ (s.chanErr.closed = true → s.bg = .done)

/-! ## Lemmas: formatting -/

theorem Sprintf_dash_line (name : String) :
    Sprintf "- %s\n" [name] = "- " ++ name ++ "\n" := by
  apply String.ext
  simp [Sprintf, sprintfChars, extraOperands]

theorem Sprintf_replication_started :
    Sprintf "Replication started\n" [] = "Replication started\n" := by decide

theorem Sprintf_secondary_disk (projectID zone diskName : String) :
    Sprintf "projects/%s/zones/%s/disks/%s" [projectID, zone, diskName]
      = "projects/" ++ projectID ++ "/zones/" ++ zone ++ "/disks/" ++ diskName := by
  apply String.ext
  simp [Sprintf, sprintfChars, extraOperands]

theorem ErrorfW_eq_wrapError (format text : String) (err : GoError)
    (h : ∀ a : String, Sprintf format [a] = text ++ a) :
    ErrorfW format err = .wrapError (text ++ err.Error) err := by
  unfold ErrorfW
  rw [h]

theorem testCreateWorkflow_workflowName_eq (workflowID projectID locationID : String) :
    testCreateWorkflow_workflowName workflowID projectID locationID
      = "projects/" ++ projectID ++ "/locations/" ++ locationID ++ "/workflows/" ++ workflowID := by
  apply String.ext
  simp [testCreateWorkflow_workflowName, testCreateWorkflow_parent, Sprintf, sprintfChars,
    extraOperands]

theorem testCleanup_parent_eq (workflowID projectID locationID : String) :
    testCleanup_parent workflowID projectID locationID
      = "projects/" ++ projectID ++ "/locations/" ++ locationID ++ "/workflows/" ++ workflowID := by
  apply String.ext
  simp [testCleanup_parent, Sprintf, sprintfChars, extraOperands]

theorem empty_ne_ACTIVE : ("" : String) ≠ "ACTIVE" := by decide

theorem Sprintf_service_Get_Do (a : String) :
    Sprintf "service.Get.Do error: %w" [a] = "service.Get.Do error: " ++ a := by
  apply String.ext
  simp [Sprintf, sprintfChars, extraOperands]

/-! ## Lemmas: strings.Contains -/

theorem hasPrefixChars_iff (p s : List Char) : hasPrefixChars p s = true ↔ p <+: s := by
  induction p generalizing s with
  | nil => simp [hasPrefixChars]
  | cons a p ih =>
    cases s with
    | nil => simp [hasPrefixChars]
    | cons b s => simp [hasPrefixChars, ih, List.cons_prefix_cons]

theorem containsChars_iff (sub s : List Char) : containsChars sub s = true ↔ sub <:+: s := by
  induction s with
  | nil => simp [containsChars, hasPrefixChars_iff]
  | cons c s ih =>
    simp [containsChars, hasPrefixChars_iff, ih, List.infix_cons_iff]

/-- The model of `strings.Contains` says that `substr` is a contiguous part of `s`. -/
theorem stringsContains_iff (s substr : String) :
    stringsContains s substr = true ↔ substr.data <:+: s.data :=
  containsChars_iff substr.data s.data

/-! ## Lemmas: listConsistencyGroup -/

theorem printDisk_eq (groupName : String) (disk : Disk) (policies : List String) (w : Writer) :
    printDisk groupName disk policies w
      = w ++ (policies.filter (fun p => stringsContains p groupName)).map
          (fun _ => "- " ++ disk.GetName ++ "\n") := by
  induction policies generalizing w with
  | nil => simp [printDisk]
  | cons p rest ih =>
    by_cases hp : stringsContains p groupName = true
    · simp [printDisk, hp, ih, Fprintf, Sprintf_dash_line]
    · simp [printDisk, hp, ih]

theorem listLoop_written (groupName : String) (results : List (Except GoError Disk)) (w : Writer) :
    ∃ written, (listLoop groupName results w).out = w ++ written ∧
      ∀ line ∈ written, ∃ disk, Except.ok disk ∈ results ∧
        line = "- " ++ disk.GetName ++ "\n" ∧
        ∃ p ∈ disk.GetResourcePolicies, stringsContains p groupName = true := by
  induction results generalizing w with
  | nil => exact ⟨[], by simp [listLoop]⟩
  | cons r rest ih =>
    cases r with
    | error err =>
      by_cases he : err = GoError.iteratorDone
      · exact ⟨[], by simp [listLoop, he]⟩
      · exact ⟨[], by simp [listLoop, he]⟩
    | ok disk =>
      obtain ⟨written, hout, hlines⟩ :=
        ih (printDisk groupName disk disk.GetResourcePolicies w)
      refine ⟨(disk.GetResourcePolicies.filter (fun p => stringsContains p groupName)).map
          (fun _ => "- " ++ disk.GetName ++ "\n") ++ written, ?_, ?_⟩
      · rw [listLoop, hout, printDisk_eq, List.append_assoc]
      · intro line hline
        rcases List.mem_append.mp hline with h | h
        · obtain ⟨p, hp, hpl⟩ := List.mem_map.mp h
          obtain ⟨hpmem, hpc⟩ := List.mem_filter.mp hp
          exact ⟨disk, List.mem_cons_self _ _, hpl.symm, p, hpmem, hpc⟩
        · obtain ⟨d, hd, rest'⟩ := hlines line h
          exact ⟨d, List.mem_cons_of_mem _ hd, rest'⟩

theorem stringsContains_empty (s : String) : stringsContains s "" = true := by
  unfold stringsContains
  cases s.data <;> simp [containsChars, hasPrefixChars]

theorem printDisk_groupLines (groupName : String) (disk : Disk) (w : Writer) :
    printDisk groupName disk disk.GetResourcePolicies w = w ++ groupLines groupName disk :=
  printDisk_eq groupName disk disk.GetResourcePolicies w

/-- When every `it.Next()` returns a disk, the loop writes the lines of the disks in
iteration order and returns nil. -/
theorem listLoop_all_ok (groupName : String) (disks : List Disk) (w : Writer) :
    listLoop groupName (disks.map Except.ok) w
      = { out := w ++ disks.flatMap (groupLines groupName), err := none } := by
  induction disks generalizing w with
  | nil => simp [listLoop]
  | cons disk rest ih =>
    simp only [List.map_cons, listLoop, ih, printDisk_groupLines, List.flatMap_cons,
      List.append_assoc]

/-! ## Lemmas: startReplication -/

theorem startReplication_cases
    (sdk : DisksSDK) (w : Writer) (projectID zone diskName primaryDiskName primaryZone : String) :
    let req := startReplicationRequest projectID zone diskName primaryDiskName primaryZone
    let r := startReplication sdk w projectID zone diskName primaryDiskName primaryZone
    ((r.err = none ∧ r.out = w ++ ["Replication started\n"]) ↔
        ∃ op, ReplicationSucceeds sdk req op) ∧
    (∀ op, ReplicationSucceeds sdk req op →
        r.calls = [.NewDisksRESTClient, .StartAsyncReplication req, .Wait op, .Close]) ∧
    ((¬ ∃ op, ReplicationSucceeds sdk req op) → r.err ≠ none ∧ r.out = w) ∧
    (r.err ≠ none → r.out = w) ∧
    (∀ q, DisksCall.StartAsyncReplication q ∈ r.calls → sdk.NewDisksRESTClient = .ok ()) ∧
    (∀ op, DisksCall.Wait op ∈ r.calls →
        sdk.NewDisksRESTClient = .ok () ∧ sdk.StartAsyncReplication req = .ok op) := by
  intro req r
  have hr : r = startReplication sdk w projectID zone diskName primaryDiskName primaryZone := rfl
  have hq : req = startReplicationRequest projectID zone diskName primaryDiskName primaryZone := rfl
  unfold startReplication at hr
  rw [← hq] at hr
  cases hc : sdk.NewDisksRESTClient with
  | error e =>
    simp only [hc] at hr
    simp [hr, ReplicationSucceeds, hc]
  | ok u =>
    cases u
    simp only [hc] at hr
    cases hs : sdk.StartAsyncReplication req with
    | error e =>
      simp only [hs] at hr
      simp [hr, ReplicationSucceeds, hs]
    | ok op =>
      simp only [hs] at hr
      cases hw : sdk.Wait op with
      | some e =>
        simp only [hw] at hr
        simp [hr, ReplicationSucceeds, hs, hc, hw]
      | none =>
        simp only [hw] at hr
        simp [hr, ReplicationSucceeds, hs, hc, hw, Fprintf, Sprintf_replication_started]

/-! ## Lemmas: the poll loop -/

theorem pollLoop_fuel_mono (env : WorkflowsEnv) (workflowName : String) (deadline : Nat) :
    ∀ (fuel : Nat) (st : PollState) (r : PollResult),
      pollLoop env workflowName deadline fuel st = some r →
      ∀ k, pollLoop env workflowName deadline (fuel + k) st = some r := by
  intro fuel
  induction fuel with
  | zero => intro st r h; simp [pollLoop] at h
  | succ n ih =>
    intro st r h k
    rw [show n + 1 + k = (n + k) + 1 by omega]
    rw [pollLoop] at h ⊢
    by_cases hs : st.workflow.State = "ACTIVE"
    · simpa [hs] using h
    · simp only [ne_eq, hs, not_false_eq_true, if_true] at h ⊢
      cases hres : (env.Get st.fetches workflowName).result with
      | error e =>
        simp only [hres] at h ⊢
        exact h
      | ok wf =>
        simp only [hres] at h ⊢
        split at h
        · rename_i hc
          rw [if_pos hc]
          exact ih _ _ h k
        · rename_i hc
          rw [if_neg hc]
          exact h

/-- With the clock not past the deadline and more fuel than whole seconds left, the
loop returns, having made at most one fetch per unit of fuel. -/
theorem pollLoop_returns (env : WorkflowsEnv) (workflowName : String) (deadline : Nat) :
    ∀ (fuel : Nat) (st : PollState),
      st.now ≤ deadline → deadline < st.now + fuel * Second →
      ∃ r, pollLoop env workflowName deadline fuel st = some r ∧
        r.final.fetches ≤ st.fetches + fuel := by
  intro fuel
  induction fuel with
  | zero => intro st h1 h2; omega
  | succ n ih =>
    intro st h1 h2
    rw [pollLoop]
    by_cases hs : st.workflow.State = "ACTIVE"
    · exact ⟨{ err := none, final := st }, by simp [hs], by simp⟩
    · simp only [ne_eq, hs, not_false_eq_true, if_true]
      cases hres : (env.Get st.fetches workflowName).result with
      | error e =>
        refine ⟨_, rfl, ?_⟩
        simp only
        omega
      | ok wf =>
        simp only
        split
        · rename_i hc
          have hle : st.now + (env.Get st.fetches workflowName).latency + Second * 1 ≤ deadline := by
            rcases hc with hc | ⟨hc, _⟩ <;> omega
          obtain ⟨r, hr, hf⟩ := ih
            { now := st.now + (env.Get st.fetches workflowName).latency + Second * 1,
              fetches := st.fetches + 1, workflow := wf,
              events := st.events ++ [.fetched wf.State, .slept] } hle (by
                simp only
                have : (n + 1) * Second = n * Second + Second := by ring
                omega)
          exact ⟨r, hr, by simp only at hf; omega⟩
        · refine ⟨_, rfl, ?_⟩
          simp only
          omega

/-- When every fetch succeeds with a state other than "ACTIVE", a return of the loop
entered with such a state is the deadline-exceeded error. -/
theorem pollLoop_never_active (env : WorkflowsEnv) (workflowName : String) (deadline : Nat)
    (hget : ∀ k, ∃ wf, (env.Get k workflowName).result = .ok wf ∧ wf.State ≠ "ACTIVE") :
    ∀ (fuel : Nat) (st : PollState) (r : PollResult),
      st.workflow.State ≠ "ACTIVE" →
      pollLoop env workflowName deadline fuel st = some r →
      r.err = some GoError.deadlineExceeded := by
  intro fuel
  induction fuel with
  | zero => intro st r _ h; simp [pollLoop] at h
  | succ n ih =>
    intro st r hs h
    rw [pollLoop, if_pos hs] at h
    obtain ⟨wf, hwf, hstate⟩ := hget st.fetches
    simp only [hwf] at h
    split at h
    · exact ih _ _ hstate h
    · simp only [Option.some.injEq] at h
      rw [← h]

/-- The shape of every return of the loop entered with a state other than "ACTIVE". -/
theorem pollLoop_shape (env : WorkflowsEnv) (workflowName : String) (deadline : Nat) :
    ∀ (fuel : Nat) (st : PollState) (r : PollResult),
      st.workflow.State ≠ "ACTIVE" →
      pollLoop env workflowName deadline fuel st = some r →
      ∃ states : List String, (∀ s ∈ states, s ≠ "ACTIVE") ∧
        ((r.err = none ∧ r.final.workflow.State = "ACTIVE" ∧
            st.now + (states.length + 1) * Second ≤ r.final.now ∧ r.final.now ≤ deadline ∧
            r.final.events = st.events ++ sleptAfter states ++ [.fetched "ACTIVE", .slept]) ∨
         (∃ s, r.err = some GoError.deadlineExceeded ∧ r.final.workflow.State = s ∧
            deadline ≤ r.final.now ∧
            r.final.events = st.events ++ sleptAfter states ++ [.fetched s, .timedOut]) ∨
         (∃ e, r.err = some (ErrorfW "service.Get.Do error: %w" e) ∧
            r.final.events = st.events ++ sleptAfter states ++ [.fetchFailed e])) := by
  intro fuel
  induction fuel with
  | zero => intro st r _ h; simp [pollLoop] at h
  | succ n ih =>
    intro st r hs h
    rw [pollLoop, if_pos hs] at h
    cases hres : (env.Get st.fetches workflowName).result with
    | error e =>
      simp only [hres, Option.some.injEq] at h
      subst h
      exact ⟨[], by simp, Or.inr (Or.inr ⟨e, rfl, by simp [sleptAfter]⟩)⟩
    | ok wf =>
      simp only [hres] at h
      split at h
      · rename_i hc
        have hle : st.now + (env.Get st.fetches workflowName).latency + Second * 1 ≤ deadline := by
          rcases hc with hc | ⟨hc, _⟩ <;> omega
        by_cases hwf : wf.State = "ACTIVE"
        · cases n with
          | zero => simp [pollLoop] at h
          | succ m =>
            rw [pollLoop] at h
            simp only [hwf, ne_eq, not_true_eq_false, if_false, Option.some.injEq] at h
            subst h
            refine ⟨[], by simp, Or.inl ⟨rfl, hwf, ?_, hle, by simp [sleptAfter]⟩⟩
            simp only [List.length_nil]
            omega
        · obtain ⟨states, hne, hcase⟩ := ih _ r hwf h
          refine ⟨wf.State :: states, ?_, ?_⟩
          · intro s hmem
            rcases List.mem_cons.mp hmem with rfl | hmem
            · exact hwf
            · exact hne s hmem
          · simp only [sleptAfter, List.flatMap_cons, List.append_assoc, List.cons_append,
              List.nil_append, List.length_cons] at hcase ⊢
            rcases hcase with ⟨h1, h2, h3, h4, h5⟩ | hcase
            · refine Or.inl ⟨h1, h2, ?_, h4, h5⟩
              have e1 : (states.length + 1 + 1) * Second = (states.length + 1) * Second + Second := by
                ring
              omega
            · exact Or.inr hcase
      · simp only [Option.some.injEq] at h
        subst h
        refine ⟨[], by simp, Or.inr (Or.inl ⟨wf.State, rfl, rfl, ?_, by simp [sleptAfter]⟩)⟩
        simp

/-- Every one-second sleep of the loop is taken out of the time left to the deadline. -/
theorem pollLoop_sleeps (env : WorkflowsEnv) (workflowName : String) (deadline : Nat) :
    ∀ (fuel : Nat) (st : PollState) (r : PollResult),
      st.now ≤ deadline →
      pollLoop env workflowName deadline fuel st = some r →
      st.now + r.final.events.count .slept * Second
        ≤ deadline + st.events.count .slept * Second := by
  intro fuel
  induction fuel with
  | zero => intro st r _ h; simp [pollLoop] at h
  | succ n ih =>
    intro st r hnow h
    rw [pollLoop] at h
    by_cases hs : st.workflow.State = "ACTIVE"
    · simp only [hs, ne_eq, not_true_eq_false, if_false, Option.some.injEq] at h
      subst h
      simp only
      omega
    · rw [if_pos hs] at h
      cases hres : (env.Get st.fetches workflowName).result with
      | error e =>
        simp only [hres, Option.some.injEq] at h
        subst h
        simp [List.count_append, List.count_cons]
        omega
      | ok wf =>
        simp only [hres] at h
        split at h
        · rename_i hc
          have hle : st.now + (env.Get st.fetches workflowName).latency + Second * 1 ≤ deadline := by
            rcases hc with hc | ⟨hc, _⟩ <;> omega
          have := ih _ r hle h
          simp [List.count_append, List.count_cons] at this
          have e1 : (List.count PollEvent.slept st.events + 1) * Second
              = List.count PollEvent.slept st.events * Second + Second := by ring
          omega
        · simp only [Option.some.injEq] at h
          subst h
          simp [List.count_append, List.count_cons]
          omega

theorem sleptThrough_zero (env : WorkflowsEnv) (workflowName : String) (first : Nat) :
    sleptThrough env workflowName first 0 = [] := by
  simp [sleptThrough]

theorem sleptThrough_succ (env : WorkflowsEnv) (workflowName : String) (first count : Nat) :
    sleptThrough env workflowName first (count + 1)
      = [PollEvent.fetched (fetchedState env workflowName first), PollEvent.slept]
        ++ sleptThrough env workflowName (first + 1) count := by
  simp [sleptThrough, List.range'_succ]

/-- A return of the loop, entered at the start of the fetch `st.fetches` with a state
other than "ACTIVE", told from the environment: `n` is the last fetch made; every
fetch before it succeeded with a state other than "ACTIVE" and its timer came first;
the fetch `n` failed, or succeeded with "ACTIVE" and the timer first (nil is returned
when the timer fires), or succeeded with the timeout first (the deadline-exceeded
error is returned). -/
theorem pollLoop_run (env : WorkflowsEnv) (workflowName : String) (start deadline : Nat) :
    ∀ (fuel : Nat) (st : PollState) (r : PollResult),
      st.workflow.State ≠ "ACTIVE" →
      st.now = fetchStart env workflowName start st.fetches →
      pollLoop env workflowName deadline fuel st = some r →
      ∃ n, st.fetches ≤ n ∧ r.final.fetches = n + 1 ∧
        (∀ k, st.fetches ≤ k → k < n →
          ∃ wf, (env.Get k workflowName).result = .ok wf ∧ wf.State ≠ "ACTIVE" ∧
            TimerFirst env workflowName start deadline k) ∧
        ((∃ e, (env.Get n workflowName).result = .error e ∧
            r.err = some (ErrorfW "service.Get.Do error: %w" e) ∧
            r.final.events = st.events
              ++ sleptThrough env workflowName st.fetches (n - st.fetches)
              ++ [.fetchFailed e]) ∨
         (∃ wf, (env.Get n workflowName).result = .ok wf ∧
            TimerFirst env workflowName start deadline n ∧ wf.State = "ACTIVE" ∧
            r.err = none ∧ r.final.workflow = wf ∧
            r.final.now = timerInstant env workflowName start n ∧
            r.final.events = st.events
              ++ sleptThrough env workflowName st.fetches (n - st.fetches)
              ++ [.fetched "ACTIVE", .slept]) ∨
         (∃ wf, (env.Get n workflowName).result = .ok wf ∧
            TimeoutFirst env workflowName start deadline n ∧
            r.err = some GoError.deadlineExceeded ∧ r.final.workflow = wf ∧
            deadline ≤ r.final.now ∧
            r.final.events = st.events
              ++ sleptThrough env workflowName st.fetches (n - st.fetches)
              ++ [.fetched wf.State, .timedOut])) := by
  intro fuel
  induction fuel with
  | zero => intro st r _ _ h; simp [pollLoop] at h
  | succ m ih =>
    intro st r hs hnow h
    rw [pollLoop, if_pos hs] at h
    have htimer : st.now + (env.Get st.fetches workflowName).latency + Second * 1
        = timerInstant env workflowName start st.fetches := by
      rw [timerInstant, hnow]
    cases hres : (env.Get st.fetches workflowName).result with
    | error e =>
      simp only [hres, Option.some.injEq] at h
      subst h
      refine ⟨st.fetches, Nat.le_refl _, rfl, fun k h1 h2 => by omega, Or.inl ⟨e, hres, rfl, ?_⟩⟩
      simp [sleptThrough_zero]
    | ok wf =>
      simp only [hres, htimer] at h
      split at h
      · rename_i hc
        by_cases hwf : wf.State = "ACTIVE"
        · cases m with
          | zero => simp [pollLoop] at h
          | succ m' =>
            rw [pollLoop] at h
            simp only [hwf, ne_eq, not_true_eq_false, if_false, Option.some.injEq] at h
            subst h
            refine ⟨st.fetches, Nat.le_refl _, rfl, fun k h1 h2 => by omega,
              Or.inr (Or.inl ⟨wf, hres, hc, hwf, rfl, rfl, rfl, ?_⟩)⟩
            simp [sleptThrough_zero]
        · obtain ⟨n, hn1, hn2, hbefore, hlast⟩ := ih _ r hwf (by simp only [timerInstant, fetchStart]) h
          simp only at hn1 hbefore hlast
          have hstate : fetchedState env workflowName st.fetches = wf.State := by
            simp [fetchedState, hres]
          have hsplit : sleptThrough env workflowName st.fetches (n - st.fetches)
              = [PollEvent.fetched wf.State, PollEvent.slept]
                ++ sleptThrough env workflowName (st.fetches + 1) (n - (st.fetches + 1)) := by
            rw [show n - st.fetches = (n - (st.fetches + 1)) + 1 by omega, sleptThrough_succ,
              hstate]
          refine ⟨n, by omega, hn2, ?_, ?_⟩
          · intro k hk1 hk2
            by_cases hk : k = st.fetches
            · subst hk
              exact ⟨wf, hres, hwf, hc⟩
            · exact hbefore k (by omega) hk2
          · rw [hsplit]
            simpa only [List.append_assoc] using hlast
      · rename_i hc
        simp only [Option.some.injEq] at h
        subst h
        refine ⟨st.fetches, Nat.le_refl _, rfl, fun k h1 h2 => by omega,
          Or.inr (Or.inr ⟨wf, hres, ?_, rfl, rfl, by simp, ?_⟩)⟩
        · unfold TimeoutFirst
          rcases Nat.lt_trichotomy (timerInstant env workflowName start st.fetches) deadline
            with hlt | heq | hgt
          · exact absurd (Or.inl hlt) hc
          · refine Or.inr ⟨heq, ?_⟩
            cases htf : env.timerFirst st.fetches with
            | false => rfl
            | true => exact absurd (Or.inr ⟨heq, htf⟩) hc
          · exact Or.inl hgt
        · simp [sleptThrough_zero]

theorem sleptThrough_append (env : WorkflowsEnv) (workflowName : String)
    (first count more : Nat) :
    sleptThrough env workflowName first (more + count)
      = sleptThrough env workflowName first count
        ++ sleptThrough env workflowName (first + count) more := by
  simp only [sleptThrough, ← List.range'_append_1, List.flatMap_append]

theorem TimerFirst_not_TimeoutFirst (env : WorkflowsEnv) (workflowName : String)
    (start deadline k : Nat) (h : TimerFirst env workflowName start deadline k) :
    ¬ TimeoutFirst env workflowName start deadline k := by
  unfold TimerFirst at h
  unfold TimeoutFirst
  rintro (h2 | ⟨h2, h3⟩)
  · rcases h with h | ⟨h, _⟩ <;> omega
  · rcases h with h | ⟨_, h⟩
    · omega
    · rw [h3] at h
      cases h

/-- The run of the loop from its start in `testCreateWorkflow`: with 301 units of fuel
or more it returns, and the return is as `pollLoop_run` tells. -/
theorem pollLoop_run_from_start (env : WorkflowsEnv) (workflowName content : String)
    (start fuel : Nat) (hfuel : 301 ≤ fuel) :
    ∃ (r : PollResult) (n : Nat),
      pollLoop env workflowName (start + Minute * 5) fuel
        { now := start, fetches := 0,
          workflow := { Name := workflowName, SourceContents := content, State := "" },
          events := [] } = some r ∧
      r.final.fetches = n + 1 ∧
      (∀ k, k < n →
        ∃ wf, (env.Get k workflowName).result = .ok wf ∧ wf.State ≠ "ACTIVE" ∧
          TimerFirst env workflowName start (start + Minute * 5) k) ∧
      ((∃ e, (env.Get n workflowName).result = .error e ∧
          r.err = some (ErrorfW "service.Get.Do error: %w" e) ∧
          r.final.events = sleptThrough env workflowName 0 n ++ [.fetchFailed e]) ∨
       (∃ wf, (env.Get n workflowName).result = .ok wf ∧
          TimerFirst env workflowName start (start + Minute * 5) n ∧ wf.State = "ACTIVE" ∧
          r.err = none ∧ r.final.workflow = wf ∧
          r.final.now = timerInstant env workflowName start n ∧
          r.final.events = sleptThrough env workflowName 0 n ++ [.fetched "ACTIVE", .slept]) ∨
       (∃ wf, (env.Get n workflowName).result = .ok wf ∧
          TimeoutFirst env workflowName start (start + Minute * 5) n ∧
          r.err = some GoError.deadlineExceeded ∧ r.final.workflow = wf ∧
          start + Minute * 5 ≤ r.final.now ∧
          r.final.events = sleptThrough env workflowName 0 n
            ++ [.fetched wf.State, .timedOut])) := by
  obtain ⟨r, hr, _⟩ := pollLoop_returns env workflowName (start + Minute * 5) 301
    { now := start, fetches := 0,
      workflow := { Name := workflowName, SourceContents := content, State := "" },
      events := [] } (by simp) (by simp only [Minute, Second]; omega)
  have hr' := pollLoop_fuel_mono env workflowName (start + Minute * 5) 301 _ r hr (fuel - 301)
  rw [show 301 + (fuel - 301) = fuel by omega] at hr'
  obtain ⟨n, _, hn, hbefore, hlast⟩ := pollLoop_run env workflowName start (start + Minute * 5)
    fuel _ r empty_ne_ACTIVE rfl hr'
  simp only [List.nil_append, Nat.sub_zero] at hlast
  exact ⟨r, n, hr', hn, fun k hk => hbefore k (Nat.zero_le _) hk, hlast⟩

/-- The fetches of a return of the loop: the count does not go down; a nil return
comes either at once, from a state that is "ACTIVE" on entry, or after a fetch, the
last one, that succeeded with state "ACTIVE", which is the value of `workflow`; a
fetch that failed is the last one and its error is returned wrapped. -/
theorem pollLoop_fetches (env : WorkflowsEnv) (workflowName : String) (deadline : Nat) :
    ∀ (fuel : Nat) (st : PollState) (r : PollResult),
      pollLoop env workflowName deadline fuel st = some r →
      st.fetches ≤ r.final.fetches ∧
      (r.err = none →
        (st.workflow.State = "ACTIVE" ∧ r.final = st) ∨
        (st.fetches < r.final.fetches ∧
          ∃ wf, (env.Get (r.final.fetches - 1) workflowName).result = .ok wf ∧
            wf.State = "ACTIVE" ∧ r.final.workflow = wf)) ∧
      (∀ k e, st.fetches ≤ k → k < r.final.fetches →
        (env.Get k workflowName).result = .error e →
        r.err = some (ErrorfW "service.Get.Do error: %w" e) ∧ r.final.fetches = k + 1) := by
  intro fuel
  induction fuel with
  | zero => intro st r h; simp [pollLoop] at h
  | succ n ih =>
    intro st r h
    rw [pollLoop] at h
    by_cases hs : st.workflow.State = "ACTIVE"
    · simp only [hs, ne_eq, not_true_eq_false, if_false, Option.some.injEq] at h
      subst h
      refine ⟨Nat.le_refl _, fun _ => Or.inl ⟨hs, rfl⟩, ?_⟩
      intro k e h1 h2
      simp only at h2
      omega
    · rw [if_pos hs] at h
      cases hres : (env.Get st.fetches workflowName).result with
      | error e0 =>
        simp only [hres, Option.some.injEq] at h
        subst h
        refine ⟨by simp, fun hnil => by simp at hnil, ?_⟩
        intro k e h1 h2 hk
        simp only at h2
        have hk' : k = st.fetches := by omega
        subst hk'
        rw [hres] at hk
        cases hk
        exact ⟨rfl, rfl⟩
      | ok wf =>
        simp only [hres] at h
        split at h
        · obtain ⟨h1, h2, h3⟩ := ih _ r h
          simp only at h1 h2 h3
          refine ⟨by omega, ?_, ?_⟩
          · intro hnil
            rcases h2 hnil with ⟨hact, hfin⟩ | ⟨hlt, hex⟩
            · refine Or.inr ⟨by rw [hfin]; simp, wf, ?_, hact, by rw [hfin]⟩
              rw [hfin]
              simpa using hres
            · exact Or.inr ⟨by omega, hex⟩
          · intro k e hk1 hk2 hk
            by_cases hkeq : k = st.fetches
            · subst hkeq
              rw [hres] at hk
              cases hk
            · exact h3 k e (by omega) hk2 hk
        · simp only [Option.some.injEq] at h
          subst h
          refine ⟨by simp, fun hnil => by simp at hnil, ?_⟩
          intro k e h1 h2 hk
          simp only at h2
          have hk' : k = st.fetches := by omega
          subst hk'
          rw [hres] at hk
          cases hk

/-- At `secondFetchFailsEnv` the function returns the error of the second fetch
wrapped, after two `Get` calls. -/
theorem testCreateWorkflow_second_fetch_fails :
    (testCreateWorkflow secondFetchFailsEnv 0 301 "wf" "p" "us-central1").map
        (fun r => (r.err, r.poll.map (fun q => (q.final.fetches, q.final.events)),
          r.calls.count (.Get "projects/p/locations/us-central1/workflows/wf")))
      = some (some (.wrapError "service.Get.Do error: googleapi: Error 503: unavailable"
                (.sdk "googleapi: Error 503: unavailable")),
              some (2, [.fetched "CREATING", .slept,
                        .fetchFailed (.sdk "googleapi: Error 503: unavailable")]),
              2) := by
  decide

/-! ## Lemmas: the race of TestExecuteWorkflow -/

theorem raceStep_beforeDeadline (s : RaceState) (ev : RaceEvent)
    (hs : BeforeDeadline s) (hev : ev ≠ .deadline) : BeforeDeadline (raceStep s ev) := by
  obtain ⟨main, bg, ⟨buf, cap, closed⟩, dp, pk⟩ := s
  obtain ⟨h1, h2, h3, h4, h5⟩ := hs
  simp only at h1 h2 h3 h4 h5
  subst h1 h2
  cases ev with
  | deadline => exact absurd rfl hev
  | callReturns v =>
    cases bg <;> cases closed <;> simp_all [BeforeDeadline, raceStep]
  | bg =>
    cases bg with
    | calling => cases closed <;> simp_all [BeforeDeadline, raceStep, bgStep]
    | done => cases closed <;> simp_all [BeforeDeadline, raceStep, bgStep]
    | atSend w =>
      cases closed with
      | true => simp at h5
      | false =>
        by_cases hlen : buf.length < cap
        · simp [BeforeDeadline, raceStep, bgStep, hlen, h3, h4]
        · simp [BeforeDeadline, raceStep, bgStep, hlen, h3, h4]
    | atClose =>
      cases closed with
      | true => simp at h5
      | false => simp [BeforeDeadline, raceStep, bgStep, h3, h4]
  | main preferDone =>
    cases main with
    | atClose => exact absurd rfl h3
    | atFatalfDeadline => exact absurd rfl h4
    | failed e => cases closed <;> simp_all [BeforeDeadline, raceStep, mainStep]
    | atOutputCheck => cases closed <;> simp_all [BeforeDeadline, raceStep, mainStep]
    | atSelect =>
      cases buf with
      | nil =>
        cases closed <;> simp_all [BeforeDeadline, raceStep, mainStep]
      | cons v rest =>
        cases v <;> simp_all [BeforeDeadline, raceStep, mainStep]

/-- As long as the deadline does not pass, no schedule makes the handoff panic. -/
theorem raceRun_no_panic_before_deadline (schedule : List RaceEvent)
    (h : RaceEvent.deadline ∉ schedule) :
    (raceRun raceInit schedule).panicked = none := by
  have key : ∀ (sched : List RaceEvent) (s : RaceState), BeforeDeadline s →
      RaceEvent.deadline ∉ sched → BeforeDeadline (raceRun s sched) := by
    intro sched
    induction sched with
    | nil => intro s hs _; exact hs
    | cons ev rest ih =>
      intro s hs hmem
      have hev : ev ≠ .deadline := fun e => hmem (e ▸ List.mem_cons_self _ _)
      have hrest : RaceEvent.deadline ∉ rest := fun e => hmem (List.mem_cons_of_mem _ e)
      exact ih (raceStep s ev) (raceStep_beforeDeadline s ev hs hev) hrest
  exact (key schedule raceInit ⟨rfl, rfl, by decide, by decide, by decide⟩ h).2.1

/-- A return of the loop entered with a state other than "ACTIVE" comes after at
least one fetch. -/
theorem pollLoop_fetches_pos (env : WorkflowsEnv) (workflowName : String) (deadline : Nat) :
    ∀ (fuel : Nat) (st : PollState) (r : PollResult),
      st.workflow.State ≠ "ACTIVE" →
      pollLoop env workflowName deadline fuel st = some r →
      st.fetches < r.final.fetches := by
  intro fuel st r hs h
  have hle := (pollLoop_fetches env workflowName deadline fuel st r h).1
  cases fuel with
  | zero => simp [pollLoop] at h
  | succ n =>
    rw [pollLoop, if_pos hs] at h
    cases hres : (env.Get st.fetches workflowName).result with
    | error e =>
      simp only [hres, Option.some.injEq] at h
      subst h
      simp
    | ok wf =>
      simp only [hres] at h
      split at h
      · have := (pollLoop_fetches env workflowName deadline n _ r h).1
        simp only at this
        omega
      · simp only [Option.some.injEq] at h
        subst h
        simp

/-- With at least 301 units of fuel `testCreateWorkflow` returns. -/
theorem testCreateWorkflow_returns (env : WorkflowsEnv) (start fuel : Nat)
    (workflowID projectID locationID : String) (hfuel : 301 ≤ fuel) :
    ∃ r, testCreateWorkflow env start fuel workflowID projectID locationID = some r := by
  unfold testCreateWorkflow
  cases env.NewService with
  | error err => exact ⟨_, rfl⟩
  | ok u =>
    simp only
    cases env.ReadFile "../myFirstWorkflow.yaml" with
    | error err => exact ⟨_, rfl⟩
    | ok content =>
      simp only
      cases env.Create (testCreateWorkflow_parent projectID locationID)
          { Name := testCreateWorkflow_workflowName workflowID projectID locationID,
            SourceContents := content, State := "" } workflowID with
      | some err => exact ⟨_, rfl⟩
      | none =>
        simp only
        obtain ⟨r, hr, _⟩ := pollLoop_returns env
          (testCreateWorkflow_workflowName workflowID projectID locationID)
          (start + Minute * 5) 301
          { now := start, fetches := 0,
            workflow := { Name := testCreateWorkflow_workflowName workflowID projectID locationID,
                          SourceContents := content, State := "" },
            events := [] } (by simp) (by simp only [Minute, Second]; omega)
        have hr' := pollLoop_fuel_mono env _ (start + Minute * 5) 301 _ r hr (fuel - 301)
        rw [show 301 + (fuel - 301) = fuel by omega] at hr'
        rw [hr']
        exact ⟨_, rfl⟩

/-- When the call returns `v` and the goroutine sends it (and possibly closes) before
the deadline passes, the `select` receives exactly `v`: nil leads to the output check,
an error fails the test with that error; nothing panics. -/
theorem raceRun_receives_result (v : Option GoError) (preferDone : Bool) :
    raceRun raceInit [.callReturns v, .bg, .main preferDone]
      = { main := (match v with | none => .atOutputCheck | some err => .failed err),
          bg := .atClose, chanErr := { buf := [], cap := 1, closed := false },
          deadlinePassed := false, panicked := none } ∧
    raceRun raceInit [.callReturns v, .bg, .bg, .main preferDone]
      = { main := (match v with | none => .atOutputCheck | some err => .failed err),
          bg := .done, chanErr := { buf := [], cap := 1, closed := true },
          deadlinePassed := false, panicked := none } ∧
    raceRun raceInit [.callReturns v, .bg, .main preferDone, .bg]
      = { main := (match v with | none => .atOutputCheck | some err => .failed err),
          bg := .done, chanErr := { buf := [], cap := 1, closed := true },
          deadlinePassed := false, panicked := none } := by
  cases v <;> cases preferDone <;> exact ⟨rfl, rfl, rfl⟩

/-- The bound of 301 fetches is reached: with fetches that return at once, a workflow
that is never active and the timer winning the tie at the deadline, the loop makes
301 fetches and returns the deadline-exceeded error at the deadline. -/
theorem pollLoop_301_fetches_reached :
    (pollLoop neverActiveEnv "wf" (0 + Minute * 5) 301
        { now := 0, fetches := 0, workflow := { Name := "wf", SourceContents := "", State := "" },
          events := [] }).map (fun r => (r.err, r.final.fetches, r.final.now))
      = some (some .deadlineExceeded, 301, 300000000000) := by
  set_option maxRecDepth 100000 in decide

/-! ## Lemmas: the revoke tests -/

theorem Sprintf_table_ne_view (topic : String) :
    Sprintf "%s_table" [topic] ≠ Sprintf "%s_view" [topic] := by
  intro h
  have hd := congrArg String.data h
  simp [Sprintf, sprintfChars, extraOperands] at hd

theorem Sprintf_analyst_group :
    Sprintf "group:%s" ["example-analyst-group@google.com"]
      = "group:example-analyst-group@google.com" := by decide

/-- After `Policy.Add(member, role)` the policy has the member in the role. -/
theorem Policy_Add_HasRole (p : Policy) (member role : String) :
    (p.Add member role).HasRole member role = true := by
  unfold Policy.Add Policy.HasRole
  simp only
  induction p.Bindings with
  | nil => simp [addMember]
  | cons b rest ih =>
    unfold addMember
    by_cases hr : b.Role = role
    · by_cases hm : member ∈ b.Members
      · simp [hr, hm]
      · simp [hr, hm]
    · simp only [hr, if_false, List.any_cons, ih, Bool.or_true]

theorem endOfTest_calls_all (datasetName : String) (calls : List RevokeTestCall)
    (failures : List TestFailure) (target : String)
    (h : calls.all (fun c => decide (c.iamTarget ≠ some target)) = true) :
    (endOfTest datasetName calls failures).calls.all
      (fun c => decide (c.iamTarget ≠ some target)) = true := by
  simp only [endOfTest, List.all_append, h, Bool.true_and]
  simp [RevokeTestCall.iamTarget]

theorem revokeAndCheck_calls_all (env : RevokeTestEnv)
    (projectID datasetName resourceName target : String) (calls : List RevokeTestCall)
    (h : calls.all (fun c => decide (c.iamTarget ≠ some target)) = true) :
    (revokeAndCheck env projectID datasetName resourceName calls).calls.all
      (fun c => decide (c.iamTarget ≠ some target)) = true := by
  have h1 : (calls ++ [RevokeTestCall.revokeTableOrViewAccessPolicies projectID datasetName
      resourceName]).all (fun c => decide (c.iamTarget ≠ some target)) = true := by
    simp only [List.all_append, h, Bool.true_and]
    simp [RevokeTestCall.iamTarget]
  unfold revokeAndCheck
  simp only
  split <;> exact endOfTest_calls_all _ _ _ _ h1

theorem addBindingThenRevoke_calls_all (env : RevokeTestEnv)
    (projectID datasetName tableID resourceName target : String)
    (calls : List RevokeTestCall) (hne : tableID ≠ target)
    (h : calls.all (fun c => decide (c.iamTarget ≠ some target)) = true) :
    (addBindingThenRevoke env projectID datasetName tableID resourceName calls).calls.all
      (fun c => decide (c.iamTarget ≠ some target)) = true := by
  unfold addBindingThenRevoke
  cases env.IAMPolicy datasetName tableID with
  | error err =>
    apply endOfTest_calls_all
    simp only [List.all_append, h, Bool.true_and]
    simp [RevokeTestCall.iamTarget, hne]
  | ok policy =>
    simp only
    have h2 : (calls ++ [RevokeTestCall.IAMPolicy datasetName tableID,
        RevokeTestCall.IAMSetPolicy datasetName tableID
          (policy.Add (Sprintf "group:%s" ["example-analyst-group@google.com"]) iamViewer)]).all
        (fun c => decide (c.iamTarget ≠ some target)) = true := by
      simp only [List.all_append, h, Bool.true_and]
      simp [RevokeTestCall.iamTarget, hne]
    cases env.IAMSetPolicy datasetName tableID
        (policy.Add (Sprintf "group:%s" ["example-analyst-group@google.com"]) iamViewer) with
    | some err => exact endOfTest_calls_all _ _ _ _ h2
    | none => exact revokeAndCheck_calls_all _ _ _ _ _ _ h2

/-- In `TestRevokeTableAccessPolicies` the resource of the revoke call is the one the
binding was set on: every revoke call in the log comes with a `SetPolicy` call on the
same table whose policy has the analyst group as viewer. -/
theorem TestRevokeTable_revokes_where_binding_was_set (env : RevokeTestEnv)
    (projectID prefixer pr ds res : String)
    (h : RevokeTestCall.revokeTableOrViewAccessPolicies pr ds res
      ∈ (TestRevokeTableAccessPolicies env projectID prefixer).calls) :
    ∃ policy, RevokeTestCall.IAMSetPolicy ds res policy
        ∈ (TestRevokeTableAccessPolicies env projectID prefixer).calls ∧
      policy.HasRole "group:example-analyst-group@google.com" iamViewer = true := by
  unfold TestRevokeTableAccessPolicies at h ⊢
  simp only at h ⊢
  cases hc : env.testClient with
  | error err => simp [hc] at h
  | ok u =>
    simp only [hc] at h ⊢
    cases hd : env.DatasetCreate
        (Sprintf "%s_dataset" [Sprintf "%s_revoke_access_to_table" [prefixer]]) with
    | some err => simp [hd, endOfTest] at h
    | none =>
      simp only [hd] at h ⊢
      cases ht : env.TableCreate
          (Sprintf "%s_dataset" [Sprintf "%s_revoke_access_to_table" [prefixer]])
          (Sprintf "%s_table" [Sprintf "%s_revoke_access_to_table" [prefixer]])
          { Schema := [], ViewQuery := "" } with
      | some err => simp [ht, endOfTest] at h
      | none =>
        simp only [ht] at h ⊢
        unfold addBindingThenRevoke at h ⊢
        simp only at h ⊢
        cases hp : env.IAMPolicy
            (Sprintf "%s_dataset" [Sprintf "%s_revoke_access_to_table" [prefixer]])
            (Sprintf "%s_table" [Sprintf "%s_revoke_access_to_table" [prefixer]]) with
        | error err => simp [hp, endOfTest] at h
        | ok policy =>
          simp only [hp] at h ⊢
          cases hsp : env.IAMSetPolicy
              (Sprintf "%s_dataset" [Sprintf "%s_revoke_access_to_table" [prefixer]])
              (Sprintf "%s_table" [Sprintf "%s_revoke_access_to_table" [prefixer]])
              (policy.Add (Sprintf "group:%s" ["example-analyst-group@google.com"])
                iamViewer) with
          | some err => simp [hsp, endOfTest] at h
          | none =>
            simp only [hsp] at h ⊢
            refine ⟨policy.Add (Sprintf "group:%s" ["example-analyst-group@google.com"])
              iamViewer, ?_, ?_⟩
            · unfold revokeAndCheck at h ⊢
              simp only at h ⊢
              split at h <;>
                · simp only [endOfTest, List.mem_append, List.mem_cons, List.mem_singleton,
                    List.not_mem_nil, or_false, RevokeTestCall.revokeTableOrViewAccessPolicies.injEq,
                    reduceCtorEq, false_or] at h ⊢
                  obtain ⟨_, h2, h3⟩ := h
                  subst h2 h3
                  split <;> simp [endOfTest]
            · rw [Sprintf_analyst_group]
              exact Policy_Add_HasRole _ _ _

/-! ## Claims -/

/-- C1: every line `listConsistencyGroup` writes is `"- <name>\n"` for a disk the
iterator returned that has a resource policy containing `groupName`, and a disk
none of whose policies contains `groupName` (an empty policy list included)
makes no write. -/
theorem C1_listConsistencyGroup_prints_only_group_disks
    (sdk : RegionDisksSDK) (w : Writer) (projectID region groupName : String) :
    (∀ line ∈ (listConsistencyGroup sdk w projectID region groupName).out.drop w.length,
      ∃ disk, Except.ok disk ∈ sdk.List { Project := projectID, Region := region } ∧
        line = "- " ++ disk.GetName ++ "\n" ∧
        ∃ p ∈ disk.GetResourcePolicies, stringsContains p groupName = true) ∧
    (∀ (disk : Disk) (w' : Writer),
      (∀ p ∈ disk.GetResourcePolicies, stringsContains p groupName = false) →
        printDisk groupName disk disk.GetResourcePolicies w' = w') := by
  constructor
  · intro line hline
    unfold listConsistencyGroup at hline
    cases hc : sdk.NewRegionDisksRESTClient with
    | error err => simp [hc] at hline
    | ok u =>
      simp only [hc] at hline
      obtain ⟨written, hout, hlines⟩ :=
        listLoop_written groupName (sdk.List { Project := projectID, Region := region }) w
      rw [hout, List.drop_left] at hline
      exact hlines line hline
  · intro disk w' hnone
    rw [printDisk_eq]
    have : disk.GetResourcePolicies.filter (fun p => stringsContains p groupName) = [] := by
      rw [List.filter_eq_nil_iff]
      intro p hp
      simp [hnone p hp]
    simp [this]

/-- C1 at `exampleDisksSDK`: the one line written is that of `disk-a`, and `disk-b` writes nothing. -/
theorem C1_witness :
    (∃ disk, Except.ok disk ∈ exampleDisksSDK.List { Project := "p", Region := "r" } ∧
        "- disk-a\n" = "- " ++ disk.GetName ++ "\n" ∧
        ∃ p ∈ disk.GetResourcePolicies, stringsContains p "grp" = true) ∧
    printDisk "grp" { Name := some "disk-b", ResourcePolicies := [] } [] [] = [] :=
  ⟨(C1_listConsistencyGroup_prints_only_group_disks exampleDisksSDK [] "p" "r" "grp").1
      "- disk-a\n" (by decide),
   (C1_listConsistencyGroup_prints_only_group_disks exampleDisksSDK [] "p" "r" "grp").2
      { Name := some "disk-b", ResourcePolicies := [] } [] (by decide)⟩

/-- C2: when the client is built and the metadata `meta` is read, the one update
`grantAccessToDataset` submits carries the access list `meta.Access` followed by
the entry (READER, group e-mail, "example-analyst-group@google.com") and is sent
with `meta.ETag`: the old entries are kept in order and the new entry is a member. -/
theorem C2_grantAccessToDataset_appends_entry
    (sdk : BigQuerySDK) (w : Writer) (projectID datasetID : String) (meta : DatasetMetadata)
    (hclient : sdk.NewClient projectID = .ok ())
    (hmeta : sdk.Metadata projectID datasetID = .ok meta) :
    ∃ submitted : DatasetMetadataToUpdate,
      (grantAccessToDataset sdk w projectID datasetID).calls
        = [.NewClient projectID, .Metadata datasetID,
           .Update datasetID submitted meta.ETag, .Close] ∧
      submitted.Access = meta.Access ++
        [{ Role := "READER", EntityType := .GroupEmailEntity,
           Entity := "example-analyst-group@google.com" }] ∧
      submitted.Access.take meta.Access.length = meta.Access ∧
      submitted.Access.length = meta.Access.length + 1 ∧
      ({ Role := "READER", EntityType := .GroupEmailEntity,
         Entity := "example-analyst-group@google.com" } : AccessEntry) ∈ submitted.Access := by
  refine ⟨{ Access := meta.Access ++
      [{ Role := "READER", EntityType := .GroupEmailEntity,
         Entity := "example-analyst-group@google.com" }] }, ?_, rfl, ?_, ?_, ?_⟩
  · unfold grantAccessToDataset
    simp only [hclient, hmeta]
    cases sdk.Update projectID datasetID
        { Access := meta.Access ++
            [{ Role := ReaderRole, EntityType := .GroupEmailEntity,
               Entity := "example-analyst-group@google.com" }] } meta.ETag <;> rfl
  · simp
  · simp
  · simp

/-- C2 at `exampleBigQuerySDK`. -/
theorem C2_witness :
    ∃ submitted : DatasetMetadataToUpdate,
      (grantAccessToDataset exampleBigQuerySDK [] "my-project-id" "mydataset").calls
        = [.NewClient "my-project-id", .Metadata "mydataset",
           .Update "mydataset" submitted "etag-1", .Close] ∧
      submitted.Access =
        [{ Role := "OWNER", EntityType := .UserEmailEntity, Entity := "owner@example.com" }] ++
        [{ Role := "READER", EntityType := .GroupEmailEntity,
           Entity := "example-analyst-group@google.com" }] ∧
      submitted.Access.take 1 =
        [{ Role := "OWNER", EntityType := .UserEmailEntity, Entity := "owner@example.com" }] ∧
      submitted.Access.length = 1 + 1 ∧
      ({ Role := "READER", EntityType := .GroupEmailEntity,
         Entity := "example-analyst-group@google.com" } : AccessEntry) ∈ submitted.Access :=
  C2_grantAccessToDataset_appends_entry exampleBigQuerySDK [] "my-project-id" "mydataset"
    { Access := [{ Role := "OWNER", EntityType := .UserEmailEntity, Entity := "owner@example.com" }],
      ETag := "etag-1" } rfl rfl

/-- C3: `startReplication` returns nil and writes "Replication started\n" exactly
when client construction, the request and the wait all succeed; it then made these
calls in that order; whenever it returns an error it wrote nothing, and it returns an
error whenever one of the three steps fails.  The request is made only after the
client was built and the wait only after the request succeeded. -/
theorem C3_startReplication_success_iff
    (sdk : DisksSDK) (w : Writer) (projectID zone diskName primaryDiskName primaryZone : String) :
    (((startReplication sdk w projectID zone diskName primaryDiskName primaryZone).err = none ∧
      (startReplication sdk w projectID zone diskName primaryDiskName primaryZone).out
        = w ++ ["Replication started\n"]) ↔
        ∃ op, ReplicationSucceeds sdk
          (startReplicationRequest projectID zone diskName primaryDiskName primaryZone) op) ∧
    (∀ op, ReplicationSucceeds sdk
          (startReplicationRequest projectID zone diskName primaryDiskName primaryZone) op →
        (startReplication sdk w projectID zone diskName primaryDiskName primaryZone).calls
          = [.NewDisksRESTClient,
             .StartAsyncReplication
               (startReplicationRequest projectID zone diskName primaryDiskName primaryZone),
             .Wait op, .Close]) ∧
    ((¬ ∃ op, ReplicationSucceeds sdk
          (startReplicationRequest projectID zone diskName primaryDiskName primaryZone) op) →
        (startReplication sdk w projectID zone diskName primaryDiskName primaryZone).err ≠ none ∧
        (startReplication sdk w projectID zone diskName primaryDiskName primaryZone).out = w) ∧
    ((startReplication sdk w projectID zone diskName primaryDiskName primaryZone).err ≠ none →
        (startReplication sdk w projectID zone diskName primaryDiskName primaryZone).out = w) ∧
    (∀ q, DisksCall.StartAsyncReplication q ∈
          (startReplication sdk w projectID zone diskName primaryDiskName primaryZone).calls →
        sdk.NewDisksRESTClient = .ok ()) ∧
    (∀ op, DisksCall.Wait op ∈
          (startReplication sdk w projectID zone diskName primaryDiskName primaryZone).calls →
        sdk.NewDisksRESTClient = .ok () ∧
        sdk.StartAsyncReplication
          (startReplicationRequest projectID zone diskName primaryDiskName primaryZone) = .ok op) :=
  startReplication_cases sdk w projectID zone diskName primaryDiskName primaryZone

/-- C3 at `replicationOkSDK` (success) and at `replicationWaitFailsSDK` (failing wait). -/
theorem C3_witness :
    ((startReplication replicationOkSDK [] "p" "europe-west4-b" "disk2" "disk1"
        "europe-west2-b").err = none ∧
     (startReplication replicationOkSDK [] "p" "europe-west4-b" "disk2" "disk1"
        "europe-west2-b").out = [] ++ ["Replication started\n"]) ∧
    ((startReplication replicationWaitFailsSDK [] "p" "europe-west4-b" "disk2" "disk1"
        "europe-west2-b").err ≠ none ∧
     (startReplication replicationWaitFailsSDK [] "p" "europe-west4-b" "disk2" "disk1"
        "europe-west2-b").out = []) :=
  ⟨(C3_startReplication_success_iff replicationOkSDK [] "p" "europe-west4-b" "disk2" "disk1"
      "europe-west2-b").1.mpr ⟨{ id := "op-1" }, rfl, rfl, rfl⟩,
   (C3_startReplication_success_iff replicationWaitFailsSDK [] "p" "europe-west4-b" "disk2" "disk1"
      "europe-west2-b").2.2.1 (fun ⟨_, _, hs, hw⟩ => by
        simp only [replicationWaitFailsSDK, Except.ok.injEq] at hs
        subst hs
        simp [replicationWaitFailsSDK] at hw)⟩

/-- C5 as stated fails.  When the first fetch returns "ACTIVE" at once, the loop still
sleeps one second before it returns nil (it returns at 1 s, after the events fetch,
sleep); when the first fetch returns "ACTIVE" after 299.5 s, the loop returns the
deadline-exceeded error although the state last fetched is "ACTIVE". -/
theorem C5_counterexample :
    (testCreateWorkflow activeAtOnceEnv 0 301 "wf" "p" "us-central1").map
        (fun r => (r.err, r.poll.map (fun q => (q.final.now, q.final.events))))
      = some (none, some (1000000000, [.fetched "ACTIVE", .slept])) ∧
    (testCreateWorkflow lateActiveEnv 0 301 "wf" "p" "us-central1").map
        (fun r => (r.err, r.poll.map (fun q => (q.final.workflow.State, q.final.events))))
      = some (some .deadlineExceeded, some ("ACTIVE", [.fetched "ACTIVE", .timedOut])) := by
  constructor <;> decide

/-- C5, amended: the loop returns (301 units of fuel are enough) after at least one
fetch, and for every fetch it made: a failed fetch is the last one and its error is
returned wrapped; after a successful fetch the loop waits for the one-second timer or
the timeout, whichever comes first, whatever the state fetched.  When the timer comes
first and the state fetched is "ACTIVE", the fetch is the last one and nil is returned
at the instant the timer fires; when the timer comes first and the state differs, the
loop sleeps and fetches again; when the timeout comes first, the fetch is the last one
and the deadline-exceeded error is returned, whatever the state fetched. -/
theorem C5_poll_loop_waits_after_every_fetch
    (env : WorkflowsEnv) (workflowName content : String) (start fuel : Nat)
    (hfuel : 301 ≤ fuel) :
    ∃ r : PollResult,
      pollLoop env workflowName (start + Minute * 5) fuel
        { now := start, fetches := 0,
          workflow := { Name := workflowName, SourceContents := content, State := "" },
          events := [] } = some r ∧
      1 ≤ r.final.fetches ∧
      (∀ k e, k < r.final.fetches → (env.Get k workflowName).result = .error e →
        r.final.fetches = k + 1 ∧
        r.err = some (.wrapError ("service.Get.Do error: " ++ e.Error) e) ∧
        r.final.events = sleptThrough env workflowName 0 k ++ [.fetchFailed e]) ∧
      (∀ k wf, k < r.final.fetches → (env.Get k workflowName).result = .ok wf →
        TimerFirst env workflowName start (start + Minute * 5) k → wf.State = "ACTIVE" →
        r.final.fetches = k + 1 ∧ r.err = none ∧
        r.final.now = timerInstant env workflowName start k ∧
        r.final.events = sleptThrough env workflowName 0 k ++ [.fetched "ACTIVE", .slept]) ∧
      (∀ k wf, k < r.final.fetches → (env.Get k workflowName).result = .ok wf →
        TimerFirst env workflowName start (start + Minute * 5) k → wf.State ≠ "ACTIVE" →
        k + 1 < r.final.fetches ∧
        sleptThrough env workflowName 0 (k + 1) <+: r.final.events) ∧
      (∀ k wf, k < r.final.fetches → (env.Get k workflowName).result = .ok wf →
        TimeoutFirst env workflowName start (start + Minute * 5) k →
        r.final.fetches = k + 1 ∧ r.err = some GoError.deadlineExceeded ∧
        start + Minute * 5 ≤ r.final.now ∧
        r.final.events = sleptThrough env workflowName 0 k ++ [.fetched wf.State, .timedOut]) := by
  obtain ⟨r, n, hr, hn, hbefore, hlast⟩ :=
    pollLoop_run_from_start env workflowName content start fuel hfuel
  have hev : ∃ tail, r.final.events = sleptThrough env workflowName 0 n ++ tail := by
    rcases hlast with ⟨e, _, _, h⟩ | ⟨wf, _, _, _, _, _, _, h⟩ | ⟨wf, _, _, _, _, _, h⟩
    · exact ⟨_, h⟩
    · exact ⟨_, h⟩
    · exact ⟨_, h⟩
  refine ⟨r, hr, by omega, ?_, ?_, ?_, ?_⟩
  · intro k e hk hget
    by_cases hkn : k < n
    · obtain ⟨wf, hwf, _⟩ := hbefore k hkn
      rw [hget] at hwf
      cases hwf
    · have hkeq : k = n := by omega
      subst hkeq
      rcases hlast with ⟨e', he', herr, hevents⟩ | ⟨wf, hwf, _⟩ | ⟨wf, hwf, _⟩
      · rw [hget] at he'
        cases he'
        exact ⟨hn, by rw [herr, ErrorfW_eq_wrapError _ _ _ Sprintf_service_Get_Do], hevents⟩
      · rw [hget] at hwf
        cases hwf
      · rw [hget] at hwf
        cases hwf
  · intro k wf hk hget htimer hactive
    by_cases hkn : k < n
    · obtain ⟨wf', hwf', hne, _⟩ := hbefore k hkn
      rw [hget] at hwf'
      cases hwf'
      exact absurd hactive hne
    · have hkeq : k = n := by omega
      subst hkeq
      rcases hlast with ⟨e', he', _⟩ | ⟨wf', hwf', _, _, herr, _, hnow, hevents⟩ |
        ⟨wf', _, hto, _⟩
      · rw [hget] at he'
        cases he'
      · exact ⟨hn, herr, hnow, hevents⟩
      · exact absurd hto (TimerFirst_not_TimeoutFirst _ _ _ _ _ htimer)
  · intro k wf hk hget htimer hne
    by_cases hkn : k < n
    · refine ⟨by omega, ?_⟩
      obtain ⟨tail, htail⟩ := hev
      have hsplit : sleptThrough env workflowName 0 n
          = sleptThrough env workflowName 0 (k + 1)
            ++ sleptThrough env workflowName (0 + (k + 1)) (n - (k + 1)) := by
        have := sleptThrough_append env workflowName 0 (k + 1) (n - (k + 1))
        rwa [show n - (k + 1) + (k + 1) = n by omega] at this
      rw [htail, hsplit, List.append_assoc]
      exact List.prefix_append _ _
    · have hkeq : k = n := by omega
      subst hkeq
      rcases hlast with ⟨e', he', _⟩ | ⟨wf', hwf', _, hact, _⟩ | ⟨wf', _, hto, _⟩
      · rw [hget] at he'
        cases he'
      · rw [hget] at hwf'
        cases hwf'
        exact absurd hact hne
      · exact absurd hto (TimerFirst_not_TimeoutFirst _ _ _ _ _ htimer)
  · intro k wf hk hget hto
    by_cases hkn : k < n
    · obtain ⟨_, _, _, htimer⟩ := hbefore k hkn
      exact absurd hto (TimerFirst_not_TimeoutFirst _ _ _ _ _ htimer)
    · have hkeq : k = n := by omega
      subst hkeq
      rcases hlast with ⟨e', he', _⟩ | ⟨wf', _, htimer, _⟩ |
        ⟨wf', hwf', _, herr, _, hnow, hevents⟩
      · rw [hget] at he'
        cases he'
      · exact absurd hto (TimerFirst_not_TimeoutFirst _ _ _ _ _ htimer)
      · rw [hget] at hwf'
        cases hwf'
        exact ⟨hn, herr, hnow, hevents⟩

/-- C5, amended, at `exampleWorkflowsEnv` with 301 units of fuel. -/
theorem C5_witness :
    ∃ r : PollResult,
      pollLoop exampleWorkflowsEnv "projects/p/locations/us-central1/workflows/wf"
        (0 + Minute * 5) 301
        { now := 0, fetches := 0,
          workflow := { Name := "projects/p/locations/us-central1/workflows/wf",
                        SourceContents := "main:\n  steps: []", State := "" },
          events := [] } = some r ∧
      1 ≤ r.final.fetches ∧
      (∀ k e, k < r.final.fetches →
        (exampleWorkflowsEnv.Get k "projects/p/locations/us-central1/workflows/wf").result
          = .error e →
        r.final.fetches = k + 1 ∧
        r.err = some (.wrapError ("service.Get.Do error: " ++ e.Error) e) ∧
        r.final.events
          = sleptThrough exampleWorkflowsEnv "projects/p/locations/us-central1/workflows/wf" 0 k
            ++ [.fetchFailed e]) ∧
      (∀ k wf, k < r.final.fetches →
        (exampleWorkflowsEnv.Get k "projects/p/locations/us-central1/workflows/wf").result
          = .ok wf →
        TimerFirst exampleWorkflowsEnv "projects/p/locations/us-central1/workflows/wf" 0
          (0 + Minute * 5) k →
        wf.State = "ACTIVE" →
        r.final.fetches = k + 1 ∧ r.err = none ∧
        r.final.now
          = timerInstant exampleWorkflowsEnv "projects/p/locations/us-central1/workflows/wf" 0 k ∧
        r.final.events
          = sleptThrough exampleWorkflowsEnv "projects/p/locations/us-central1/workflows/wf" 0 k
            ++ [.fetched "ACTIVE", .slept]) ∧
      (∀ k wf, k < r.final.fetches →
        (exampleWorkflowsEnv.Get k "projects/p/locations/us-central1/workflows/wf").result
          = .ok wf →
        TimerFirst exampleWorkflowsEnv "projects/p/locations/us-central1/workflows/wf" 0
          (0 + Minute * 5) k →
        wf.State ≠ "ACTIVE" →
        k + 1 < r.final.fetches ∧
        sleptThrough exampleWorkflowsEnv "projects/p/locations/us-central1/workflows/wf" 0 (k + 1)
          <+: r.final.events) ∧
      (∀ k wf, k < r.final.fetches →
        (exampleWorkflowsEnv.Get k "projects/p/locations/us-central1/workflows/wf").result
          = .ok wf →
        TimeoutFirst exampleWorkflowsEnv "projects/p/locations/us-central1/workflows/wf" 0
          (0 + Minute * 5) k →
        r.final.fetches = k + 1 ∧ r.err = some GoError.deadlineExceeded ∧
        0 + Minute * 5 ≤ r.final.now ∧
        r.final.events
          = sleptThrough exampleWorkflowsEnv "projects/p/locations/us-central1/workflows/wf" 0 k
            ++ [.fetched wf.State, .timedOut]) :=
  C5_poll_loop_waits_after_every_fetch exampleWorkflowsEnv
    "projects/p/locations/us-central1/workflows/wf" "main:\n  steps: []" 0 301 (by decide)

/-- C6 on the code: with the deadline first, the outcome depends on what the
background call does later.  If the call never returns, the test is failed with the
deadline-exceeded error and nothing panics.  If the call returns nil after the test
goroutine ran `close(chanErr)` and `t.Fatalf`, the goroutine's send panics.  If the
call returns nil after `close(chanErr)` and before `t.Fatalf`, the send panics and
the test goroutine never reports the deadline-exceeded error. -/
theorem C6_deadline_outcome_depends_on_background :
    raceRun raceInit [.deadline, .main true, .main true, .main true]
      = { main := .failed .deadlineExceeded, bg := .calling,
          chanErr := { buf := [], cap := 1, closed := true },
          deadlinePassed := true, panicked := none } ∧
    raceRun raceInit [.deadline, .main true, .main true, .main true, .callReturns none, .bg]
      = { main := .failed .deadlineExceeded, bg := .atSend none,
          chanErr := { buf := [], cap := 1, closed := true },
          deadlinePassed := true, panicked := some .sendOnClosedChannel } ∧
    raceRun raceInit [.deadline, .main true, .main true, .callReturns none, .bg, .main true]
      = { main := .atFatalfDeadline, bg := .atSend none,
          chanErr := { buf := [], cap := 1, closed := true },
          deadlinePassed := true, panicked := some .sendOnClosedChannel } := by
  refine ⟨?_, ?_, ?_⟩ <;> decide

/-- C7 on the code: when the deadline case wins and the call returns an error later,
the goroutine sends on the closed `chanErr`; when the goroutine has sent and closed
and the `select` takes the deadline case, the test goroutine closes `chanErr` a second
time; when the goroutine has sent, the `select` takes the deadline case and the test
goroutine closes first, the goroutine closes `chanErr` a second time. -/
theorem C7_chanErr_send_after_close_and_double_close :
    (raceRun raceInit [.deadline, .main true, .main true, .main true,
        .callReturns (some (.sdk "execution failed")), .bg]).panicked
      = some .sendOnClosedChannel ∧
    (raceRun raceInit [.callReturns none, .bg, .bg, .deadline, .main true, .main true]).panicked
      = some .closeOfClosedChannel ∧
    (raceRun raceInit [.callReturns none, .bg, .deadline, .main true, .main true, .bg]).panicked
      = some .closeOfClosedChannel := by
  refine ⟨?_, ?_, ?_⟩ <;> decide

/-- C8: with at least 301 units of fuel the poll loop returns, for every environment;
it has made at most 301 fetches, its one-second sleeps add up to at most the five
minutes of the timeout, and when every fetch succeeds with a state other than
"ACTIVE" it returns the deadline-exceeded error. -/
theorem C8_poll_loop_terminates
    (env : WorkflowsEnv) (workflowName content : String) (start fuel : Nat)
    (hfuel : 301 ≤ fuel) :
    ∃ r : PollResult,
      pollLoop env workflowName (start + Minute * 5) fuel
        { now := start, fetches := 0,
          workflow := { Name := workflowName, SourceContents := content, State := "" },
          events := [] } = some r ∧
      r.final.fetches ≤ 301 ∧
      r.final.events.count .slept * Second ≤ Minute * 5 ∧
      ((∀ k, ∃ wf, (env.Get k workflowName).result = .ok wf ∧ wf.State ≠ "ACTIVE") →
        r.err = some GoError.deadlineExceeded) := by
  obtain ⟨r, hr, hfetches⟩ := pollLoop_returns env workflowName (start + Minute * 5) 301
    { now := start, fetches := 0,
      workflow := { Name := workflowName, SourceContents := content, State := "" },
      events := [] } (by simp) (by simp only [Minute, Second]; omega)
  have hr' := pollLoop_fuel_mono env workflowName (start + Minute * 5) 301 _ r hr (fuel - 301)
  rw [show 301 + (fuel - 301) = fuel by omega] at hr'
  refine ⟨r, hr', by simpa using hfetches, ?_, ?_⟩
  · have := pollLoop_sleeps env workflowName (start + Minute * 5) 301 _ r (by simp) hr
    simp only [List.count_nil, Nat.zero_mul, Nat.add_zero] at this
    omega
  · intro hget
    exact pollLoop_never_active env workflowName (start + Minute * 5) hget 301 _ r empty_ne_ACTIVE hr

/-- C8 at `neverActiveEnv` with 301 units of fuel. -/
theorem C8_witness :
    ∃ r : PollResult,
      pollLoop neverActiveEnv "projects/p/locations/us-central1/workflows/wf"
        (0 + Minute * 5) 301
        { now := 0, fetches := 0,
          workflow := { Name := "projects/p/locations/us-central1/workflows/wf",
                        SourceContents := "main:\n  steps: []", State := "" },
          events := [] } = some r ∧
      r.final.fetches ≤ 301 ∧
      r.final.events.count .slept * Second ≤ Minute * 5 ∧
      ((∀ k, ∃ wf, (neverActiveEnv.Get k
            "projects/p/locations/us-central1/workflows/wf").result = .ok wf ∧
          wf.State ≠ "ACTIVE") →
        r.err = some GoError.deadlineExceeded) :=
  C8_poll_loop_terminates neverActiveEnv "projects/p/locations/us-central1/workflows/wf"
    "main:\n  steps: []" 0 301 (by decide)

/-- C9: the request `startReplication` builds has project `projectID`, zone
`primaryZone`, disk `primaryDiskName` and secondary disk
"projects/<projectID>/zones/<zone>/disks/<diskName>"; the secondary path does not
depend on the primary's zone and name, the `Zone` and `Disk` fields do not depend on
the secondary's zone and name, and this is the request of every
`StartAsyncReplication` call the function makes (it makes one once the client is built). -/
theorem C9_startReplication_request
    (projectID zone diskName primaryDiskName primaryZone : String) :
    (startReplicationRequest projectID zone diskName primaryDiskName primaryZone).Project
      = projectID ∧
    (startReplicationRequest projectID zone diskName primaryDiskName primaryZone).Zone
      = primaryZone ∧
    (startReplicationRequest projectID zone diskName primaryDiskName primaryZone).Disk
      = primaryDiskName ∧
    (startReplicationRequest projectID zone diskName primaryDiskName
        primaryZone).DisksStartAsyncReplicationRequestResource =
      some { AsyncSecondaryDisk :=
               some ("projects/" ++ projectID ++ "/zones/" ++ zone ++ "/disks/" ++ diskName) } ∧
    (∀ primaryDiskName' primaryZone' : String,
      (startReplicationRequest projectID zone diskName primaryDiskName'
          primaryZone').DisksStartAsyncReplicationRequestResource
        = (startReplicationRequest projectID zone diskName primaryDiskName
          primaryZone).DisksStartAsyncReplicationRequestResource) ∧
    (∀ zone' diskName' : String,
      (startReplicationRequest projectID zone' diskName' primaryDiskName primaryZone).Zone
        = (startReplicationRequest projectID zone diskName primaryDiskName primaryZone).Zone ∧
      (startReplicationRequest projectID zone' diskName' primaryDiskName primaryZone).Disk
        = (startReplicationRequest projectID zone diskName primaryDiskName primaryZone).Disk) ∧
    (∀ (sdk : DisksSDK) (w : Writer) (q : StartAsyncReplicationDiskRequest),
      DisksCall.StartAsyncReplication q ∈
          (startReplication sdk w projectID zone diskName primaryDiskName primaryZone).calls →
        q = startReplicationRequest projectID zone diskName primaryDiskName primaryZone) ∧
    (∀ (sdk : DisksSDK) (w : Writer), sdk.NewDisksRESTClient = .ok () →
      DisksCall.StartAsyncReplication
          (startReplicationRequest projectID zone diskName primaryDiskName primaryZone) ∈
          (startReplication sdk w projectID zone diskName primaryDiskName primaryZone).calls) := by
  refine ⟨rfl, rfl, rfl, ?_, fun _ _ => rfl, fun _ _ => ⟨rfl, rfl⟩, ?_, ?_⟩
  · show some (DisksStartAsyncReplicationRequest.mk (some (Sprintf "projects/%s/zones/%s/disks/%s"
        [projectID, zone, diskName]))) = _
    rw [Sprintf_secondary_disk]
  · intro sdk w q hq
    unfold startReplication at hq
    cases hc : sdk.NewDisksRESTClient with
    | error err => simp [hc] at hq
    | ok u =>
      simp only [hc] at hq
      cases hs : sdk.StartAsyncReplication
          (startReplicationRequest projectID zone diskName primaryDiskName primaryZone) with
      | error err => simpa [hs] using hq
      | ok op =>
        simp only [hs] at hq
        cases hw : sdk.Wait op <;> simpa [hw] using hq
  · intro sdk w hc
    unfold startReplication
    simp only [hc]
    cases hs : sdk.StartAsyncReplication
        (startReplicationRequest projectID zone diskName primaryDiskName primaryZone) with
    | error err => simp [hs]
    | ok op =>
      simp only [hs]
      cases hw : sdk.Wait op <;> simp

/-- C9 at the values of the sample's comments, on `replicationOkSDK`. -/
theorem C9_witness :
    DisksCall.StartAsyncReplication
        { Project := "your_project_id", Zone := "europe-west2-b", Disk := "your_disk_name2",
          DisksStartAsyncReplicationRequestResource := some {
            AsyncSecondaryDisk :=
              some "projects/your_project_id/zones/europe-west4-b/disks/your_disk_name" } }
      ∈ (startReplication replicationOkSDK [] "your_project_id" "europe-west4-b" "your_disk_name"
          "your_disk_name2" "europe-west2-b").calls ∧
    ∀ q, DisksCall.StartAsyncReplication q
      ∈ (startReplication replicationOkSDK [] "your_project_id" "europe-west4-b" "your_disk_name"
          "your_disk_name2" "europe-west2-b").calls →
      q = { Project := "your_project_id", Zone := "europe-west2-b", Disk := "your_disk_name2",
            DisksStartAsyncReplicationRequestResource := some {
              AsyncSecondaryDisk :=
                some "projects/your_project_id/zones/europe-west4-b/disks/your_disk_name" } } :=
  ⟨(C9_startReplication_request "your_project_id" "europe-west4-b" "your_disk_name"
      "your_disk_name2" "europe-west2-b").2.2.2.2.2.2.2 replicationOkSDK [] rfl,
   fun q hq => (C9_startReplication_request "your_project_id" "europe-west4-b" "your_disk_name"
      "your_disk_name2" "europe-west2-b").2.2.2.2.2.2.1 replicationOkSDK [] q hq⟩

/-- C10: for all `workflowID`, `projectID` and `locationID` the name `testCleanup`
passes to the delete call equals the `workflowName` of `testCreateWorkflow`, both
being "projects/<projectID>/locations/<locationID>/workflows/<workflowID>"; it is the
name of every `Delete` call of `testCleanup`, of the workflow `testCreateWorkflow`
creates and of every `Get` call of its poll loop.  The calls are made: once the
service is built `testCleanup` makes exactly one `Delete` call, on that name; once the
service is built and the file read `testCreateWorkflow` makes the `Create` call of a
workflow of that name, and once the creation succeeds it makes a `Get` call on that
name. -/
theorem C10_testCleanup_deletes_created_workflow (workflowID projectID locationID : String) :
    testCleanup_parent workflowID projectID locationID
      = testCreateWorkflow_workflowName workflowID projectID locationID ∧
    testCleanup_parent workflowID projectID locationID
      = "projects/" ++ projectID ++ "/locations/" ++ locationID ++ "/workflows/" ++ workflowID ∧
    (∀ (env : WorkflowsEnv) (name : String),
      WorkflowsCall.Delete name ∈ (testCleanup env workflowID projectID locationID).2 →
        name = testCreateWorkflow_workflowName workflowID projectID locationID) ∧
    (∀ (env : WorkflowsEnv) (start fuel : Nat) (r : CreateResult),
      testCreateWorkflow env start fuel workflowID projectID locationID = some r →
        (∀ name, WorkflowsCall.Get name ∈ r.calls →
          name = testCleanup_parent workflowID projectID locationID) ∧
        (∀ parent workflow id, WorkflowsCall.Create parent workflow id ∈ r.calls →
          workflow.Name = testCleanup_parent workflowID projectID locationID ∧
          id = workflowID)) ∧
    (∀ (env : WorkflowsEnv), env.NewService = .ok () →
      (testCleanup env workflowID projectID locationID).2
        = [.NewService,
           .Delete (testCreateWorkflow_workflowName workflowID projectID locationID)]) ∧
    (∀ (env : WorkflowsEnv) (start fuel : Nat) (content : String),
      301 ≤ fuel → env.NewService = .ok () →
      env.ReadFile "../myFirstWorkflow.yaml" = .ok content →
      ∃ r, testCreateWorkflow env start fuel workflowID projectID locationID = some r ∧
        WorkflowsCall.Create (testCreateWorkflow_parent projectID locationID)
            { Name := testCreateWorkflow_workflowName workflowID projectID locationID,
              SourceContents := content, State := "" } workflowID ∈ r.calls ∧
        (env.Create (testCreateWorkflow_parent projectID locationID)
            { Name := testCreateWorkflow_workflowName workflowID projectID locationID,
              SourceContents := content, State := "" } workflowID = none →
          WorkflowsCall.Get (testCreateWorkflow_workflowName workflowID projectID locationID)
            ∈ r.calls)) := by
  have hname : testCleanup_parent workflowID projectID locationID
      = testCreateWorkflow_workflowName workflowID projectID locationID := by
    rw [testCleanup_parent_eq, testCreateWorkflow_workflowName_eq]
  refine ⟨hname, testCleanup_parent_eq _ _ _, ?_, ?_, ?_, ?_⟩
  rotate_left 2
  · intro env hs
    unfold testCleanup
    simp only [hs, hname]
    cases env.Delete (testCreateWorkflow_workflowName workflowID projectID locationID) <;> rfl
  · intro env start fuel content hfuel hs hf
    obtain ⟨r, hr⟩ := testCreateWorkflow_returns env start fuel workflowID projectID locationID
      hfuel
    refine ⟨r, hr, ?_⟩
    unfold testCreateWorkflow at hr
    simp only [hs, hf] at hr
    cases hc : env.Create (testCreateWorkflow_parent projectID locationID)
        { Name := testCreateWorkflow_workflowName workflowID projectID locationID,
          SourceContents := content, State := "" } workflowID with
    | some err =>
      simp only [hc, Option.some.injEq] at hr
      subst hr
      simp
    | none =>
      simp only [hc] at hr
      cases hp : pollLoop env (testCreateWorkflow_workflowName workflowID projectID locationID)
          (start + Minute * 5) fuel
          { now := start, fetches := 0,
            workflow := { Name := testCreateWorkflow_workflowName workflowID projectID locationID,
                          SourceContents := content, State := "" },
            events := [] } with
      | none => simp [hp] at hr
      | some pr =>
        simp only [hp, Option.some.injEq] at hr
        subst hr
        have hpos := pollLoop_fetches_pos env _ _ fuel _ pr empty_ne_ACTIVE hp
        simp only at hpos
        refine ⟨by simp, fun _ => ?_⟩
        simp only [List.mem_append, List.mem_replicate]
        exact Or.inr ⟨by omega, trivial⟩
  · intro env name h
    rw [← hname]
    unfold testCleanup at h
    cases hs : env.NewService with
    | error err => simp [hs] at h
    | ok u =>
      simp only [hs] at h
      cases hd : env.Delete (testCleanup_parent workflowID projectID locationID) <;>
        simpa [hd] using h
  · intro env start fuel r h
    rw [hname]
    unfold testCreateWorkflow at h
    cases hs : env.NewService with
    | error err =>
      simp only [hs, Option.some.injEq] at h
      subst h
      simp
    | ok u =>
      simp only [hs] at h
      cases hf : env.ReadFile "../myFirstWorkflow.yaml" with
      | error err =>
        simp only [hf, Option.some.injEq] at h
        subst h
        simp
      | ok content =>
        simp only [hf] at h
        cases hc : env.Create (testCreateWorkflow_parent projectID locationID)
            { Name := testCreateWorkflow_workflowName workflowID projectID locationID,
              SourceContents := content, State := "" } workflowID with
        | some err =>
          simp only [hc, Option.some.injEq] at h
          subst h
          simp
          rintro _ wf _ _ rfl rfl
          exact ⟨rfl, rfl⟩
        | none =>
          simp only [hc] at h
          cases hp : pollLoop env (testCreateWorkflow_workflowName workflowID projectID locationID)
              (start + Minute * 5) fuel
              { now := start, fetches := 0,
                workflow := { Name := testCreateWorkflow_workflowName workflowID projectID locationID,
                              SourceContents := content, State := "" },
                events := [] } with
          | none => simp [hp] at h
          | some pr =>
            simp only [hp, Option.some.injEq] at h
            subst h
            simp
            rintro _ wf _ _ rfl rfl
            exact ⟨rfl, rfl⟩

/-- C10 at `exampleWorkflowsEnv`: the name deleted is the name created and polled, and
the `Delete` call on it is made. -/
theorem C10_witness :
    "projects/my-project/locations/us-central1/workflows/myFirstWorkflow_1"
      = testCreateWorkflow_workflowName "myFirstWorkflow_1" "my-project" "us-central1" ∧
    (testCleanup exampleWorkflowsEnv "myFirstWorkflow_1" "my-project" "us-central1").2
      = [.NewService,
         .Delete (testCreateWorkflow_workflowName "myFirstWorkflow_1" "my-project"
           "us-central1")] :=
  ⟨(C10_testCleanup_deletes_created_workflow "myFirstWorkflow_1" "my-project"
      "us-central1").2.2.1 exampleWorkflowsEnv
      "projects/my-project/locations/us-central1/workflows/myFirstWorkflow_1" (by decide),
   (C10_testCleanup_deletes_created_workflow "myFirstWorkflow_1" "my-project"
      "us-central1").2.2.2.2.1 exampleWorkflowsEnv rfl⟩

/-- C11 on the code: in `TestRevokeViewAccessPolicies` no IAM call is made on the
view.  For every environment and prefix, no `Policy` or `SetPolicy` call of the test
names `viewName`; with every call succeeding, both IAM calls name the table
"x_revoke_access_to_view_table", the policy with the analyst group as viewer is set on
that table, and `revokeTableOrViewAccessPolicies` is called on
"x_revoke_access_to_view_view".  In `TestRevokeTableAccessPolicies` the IAM calls and
the revoke call name the same table. -/
theorem C11_view_test_sets_binding_on_table :
    (∀ (env : RevokeTestEnv) (projectID prefixer : String),
      (TestRevokeViewAccessPolicies env projectID prefixer).calls.all
        (fun c => decide (c.iamTarget
          ≠ some (Sprintf "%s_view" [Sprintf "%s_revoke_access_to_view" [prefixer]]))) = true) ∧
    (TestRevokeViewAccessPolicies okRevokeEnv "my-project" "x").calls.filterMap
        RevokeTestCall.iamTarget
      = ["x_revoke_access_to_view_table", "x_revoke_access_to_view_table"] ∧
    RevokeTestCall.IAMSetPolicy "x_revoke_access_to_view_dataset" "x_revoke_access_to_view_table"
        { Bindings := [{ Role := "roles/viewer",
                         Members := ["group:example-analyst-group@google.com"] }] }
      ∈ (TestRevokeViewAccessPolicies okRevokeEnv "my-project" "x").calls ∧
    RevokeTestCall.revokeTableOrViewAccessPolicies "my-project"
        "x_revoke_access_to_view_dataset" "x_revoke_access_to_view_view"
      ∈ (TestRevokeViewAccessPolicies okRevokeEnv "my-project" "x").calls ∧
    (TestRevokeTableAccessPolicies okRevokeEnv "my-project" "x").calls.filterMap
        RevokeTestCall.iamTarget
      = ["x_revoke_access_to_table_table", "x_revoke_access_to_table_table"] ∧
    RevokeTestCall.revokeTableOrViewAccessPolicies "my-project"
        "x_revoke_access_to_table_dataset" "x_revoke_access_to_table_table"
      ∈ (TestRevokeTableAccessPolicies okRevokeEnv "my-project" "x").calls := by
  refine ⟨?_, by decide, by decide, by decide, by decide, by decide⟩
  intro env projectID prefixer
  unfold TestRevokeViewAccessPolicies
  simp only
  cases env.testClient with
  | error err => simp [RevokeTestCall.iamTarget]
  | ok u =>
    simp only
    cases env.DatasetCreate
        (Sprintf "%s_dataset" [Sprintf "%s_revoke_access_to_view" [prefixer]]) with
    | some err =>
      apply endOfTest_calls_all
      simp [RevokeTestCall.iamTarget]
    | none =>
      simp only
      cases env.TableCreate
          (Sprintf "%s_dataset" [Sprintf "%s_revoke_access_to_view" [prefixer]])
          (Sprintf "%s_table" [Sprintf "%s_revoke_access_to_view" [prefixer]])
          { Schema := [{ Name := "id", FieldType := "INTEGER", Required := true }],
            ViewQuery := "" } with
      | some err =>
        apply endOfTest_calls_all
        simp [RevokeTestCall.iamTarget]
      | none =>
        simp only
        cases env.TableCreate
            (Sprintf "%s_dataset" [Sprintf "%s_revoke_access_to_view" [prefixer]])
            (Sprintf "%s_view" [Sprintf "%s_revoke_access_to_view" [prefixer]])
            { Schema := [],
              ViewQuery := Sprintf "SELECT * FROM `%s.%s`"
                [Sprintf "%s_dataset" [Sprintf "%s_revoke_access_to_view" [prefixer]],
                 Sprintf "%s_table" [Sprintf "%s_revoke_access_to_view" [prefixer]]] } with
        | some err =>
          apply endOfTest_calls_all
          simp [RevokeTestCall.iamTarget]
        | none =>
          apply addBindingThenRevoke_calls_all
          · exact Sprintf_table_ne_view _
          · simp [RevokeTestCall.iamTarget]

/-- C12: when the client is built and the iterator returns the disks `disks` and
ends without error, `listConsistencyGroup` returns nil and its output is, in
iteration order, one line "- <disk name>\n" for each pair of a disk and a policy of
the disk that contains `groupName`; a disk is printed as many times as it has such
policies, and with the empty `groupName` once per policy it has. -/
theorem C12_listConsistencyGroup_one_line_per_matching_policy
    (sdk : RegionDisksSDK) (w : Writer) (projectID region groupName : String)
    (disks : List Disk)
    (hclient : sdk.NewRegionDisksRESTClient = .ok ())
    (hlist : sdk.List { Project := projectID, Region := region } = disks.map Except.ok) :
    (listConsistencyGroup sdk w projectID region groupName).err = none ∧
    (listConsistencyGroup sdk w projectID region groupName).out
      = w ++ disks.flatMap (fun disk =>
          (disk.GetResourcePolicies.filter (fun p => stringsContains p groupName)).map
            (fun _ => "- " ++ disk.GetName ++ "\n")) ∧
    String.join (listConsistencyGroup sdk w projectID region groupName).out
      = String.join (w ++ disks.flatMap (fun disk =>
          (disk.GetResourcePolicies.filter (fun p => stringsContains p groupName)).map
            (fun _ => "- " ++ disk.GetName ++ "\n"))) ∧
    (∀ (disk : Disk) (w' : Writer),
      printDisk groupName disk disk.GetResourcePolicies w'
        = w' ++ List.replicate
            (disk.GetResourcePolicies.countP (fun p => stringsContains p groupName))
            ("- " ++ disk.GetName ++ "\n")) ∧
    (∀ (disk : Disk) (w' : Writer),
      printDisk "" disk disk.GetResourcePolicies w'
        = w' ++ List.replicate disk.GetResourcePolicies.length
            ("- " ++ disk.GetName ++ "\n")) := by
  have hout : listConsistencyGroup sdk w projectID region groupName
      = { out := w ++ disks.flatMap (groupLines groupName), err := none } := by
    unfold listConsistencyGroup
    simp only [hclient, hlist, listLoop_all_ok]
  have hrep : ∀ (g : String) (disk : Disk) (w' : Writer),
      printDisk g disk disk.GetResourcePolicies w'
        = w' ++ List.replicate (disk.GetResourcePolicies.countP (fun p => stringsContains p g))
            ("- " ++ disk.GetName ++ "\n") := by
    intro g disk w'
    rw [printDisk_eq, List.countP_eq_length_filter]
    congr 1
    exact List.map_const' _ _
  refine ⟨by rw [hout], by rw [hout]; rfl, by rw [hout]; rfl, hrep groupName, ?_⟩
  intro disk w'
  rw [hrep "" disk w']
  congr 2
  rw [List.countP_eq_length_filter, List.filter_eq_self.mpr]
  intro p _
  exact stringsContains_empty p

/-- C12 at `threeDisksSDK`: `disk-a` is printed twice, `disk-b` not at all, `disk-c` once. -/
theorem C12_witness :
    (listConsistencyGroup threeDisksSDK [] "p" "r" "grp").err = none ∧
    (listConsistencyGroup threeDisksSDK [] "p" "r" "grp").out
      = ["- disk-a\n", "- disk-a\n", "- disk-c\n"] :=
  ⟨(C12_listConsistencyGroup_one_line_per_matching_policy threeDisksSDK [] "p" "r" "grp"
      [{ Name := some "disk-a",
         ResourcePolicies := ["projects/p/regions/r/resourcePolicies/grp",
                              "projects/p/regions/r/resourcePolicies/grp-backup"] },
       { Name := some "disk-b", ResourcePolicies := [] },
       { Name := some "disk-c",
         ResourcePolicies := ["projects/p/regions/r/resourcePolicies/other",
                              "projects/p/regions/r/resourcePolicies/grp"] }] rfl rfl).1,
   ((C12_listConsistencyGroup_one_line_per_matching_policy threeDisksSDK [] "p" "r" "grp"
      [{ Name := some "disk-a",
         ResourcePolicies := ["projects/p/regions/r/resourcePolicies/grp",
                              "projects/p/regions/r/resourcePolicies/grp-backup"] },
       { Name := some "disk-b", ResourcePolicies := [] },
       { Name := some "disk-c",
         ResourcePolicies := ["projects/p/regions/r/resourcePolicies/other",
                              "projects/p/regions/r/resourcePolicies/grp"] }] rfl rfl).2.1).trans
     (by decide)⟩

/-- C13: with at least 301 units of fuel `testCreateWorkflow` returns, and when it
returns nil the poll loop was reached, made at least one fetch, and its last fetch
succeeded with state "ACTIVE", the final value of `workflow`; when a fetch the loop
made failed, the function returns that error wrapped, that fetch is the last one, and
the `Get` calls made number exactly the fetches up to it. -/
theorem C13_testCreateWorkflow_nil_only_after_active_fetch
    (env : WorkflowsEnv) (start fuel : Nat) (workflowID projectID locationID : String)
    (hfuel : 301 ≤ fuel) :
    ∃ r, testCreateWorkflow env start fuel workflowID projectID locationID = some r ∧
      (r.err = none →
        ∃ q wf, r.poll = some q ∧ 1 ≤ q.final.fetches ∧
          (env.Get (q.final.fetches - 1)
            (testCreateWorkflow_workflowName workflowID projectID locationID)).result = .ok wf ∧
          wf.State = "ACTIVE" ∧ q.final.workflow = wf) ∧
      (∀ q k e, r.poll = some q → k < q.final.fetches →
        (env.Get k (testCreateWorkflow_workflowName workflowID projectID locationID)).result
          = .error e →
        r.err = some (.wrapError ("service.Get.Do error: " ++ e.Error) e) ∧
        q.final.fetches = k + 1 ∧
        r.calls.count (.Get (testCreateWorkflow_workflowName workflowID projectID locationID))
          = k + 1) := by
  obtain ⟨r, hr⟩ := testCreateWorkflow_returns env start fuel workflowID projectID locationID hfuel
  refine ⟨r, hr, ?_⟩
  unfold testCreateWorkflow at hr
  cases hs : env.NewService with
  | error err =>
    simp only [hs, Option.some.injEq] at hr
    subst hr
    simp
  | ok u =>
    simp only [hs] at hr
    cases hf : env.ReadFile "../myFirstWorkflow.yaml" with
    | error err =>
      simp only [hf, Option.some.injEq] at hr
      subst hr
      simp
    | ok content =>
      simp only [hf] at hr
      cases hc : env.Create (testCreateWorkflow_parent projectID locationID)
          { Name := testCreateWorkflow_workflowName workflowID projectID locationID,
            SourceContents := content, State := "" } workflowID with
      | some err =>
        simp only [hc, Option.some.injEq] at hr
        subst hr
        simp
      | none =>
        simp only [hc] at hr
        cases hp : pollLoop env (testCreateWorkflow_workflowName workflowID projectID locationID)
            (start + Minute * 5) fuel
            { now := start, fetches := 0,
              workflow := { Name := testCreateWorkflow_workflowName workflowID projectID locationID,
                            SourceContents := content, State := "" },
              events := [] } with
        | none => simp [hp] at hr
        | some pr =>
          simp only [hp, Option.some.injEq] at hr
          subst hr
          obtain ⟨_, h2, h3⟩ := pollLoop_fetches env _ _ fuel _ pr hp
          simp only at h2 h3
          constructor
          · intro hnil
            rcases h2 hnil with ⟨hact, _⟩ | ⟨hlt, wf, hwf, hstate, hfinal⟩
            · exact absurd hact empty_ne_ACTIVE
            · exact ⟨pr, wf, rfl, by omega, hwf, hstate, hfinal⟩
          · intro q k e hq hk hget
            simp only [Option.some.injEq] at hq
            subst hq
            obtain ⟨herr, hcount⟩ := h3 k e (Nat.zero_le _) hk hget
            refine ⟨?_, hcount, ?_⟩
            · rw [herr, ErrorfW_eq_wrapError _ _ _ Sprintf_service_Get_Do]
            · rw [List.count_append, List.count_replicate_self, hcount]
              simp [List.count_cons]

/-- C13 at `exampleWorkflowsEnv` with 301 units of fuel. -/
theorem C13_witness :
    ∃ r, testCreateWorkflow exampleWorkflowsEnv 0 301 "wf" "p" "us-central1" = some r ∧
      (r.err = none →
        ∃ q wf, r.poll = some q ∧ 1 ≤ q.final.fetches ∧
          (exampleWorkflowsEnv.Get (q.final.fetches - 1)
            (testCreateWorkflow_workflowName "wf" "p" "us-central1")).result = .ok wf ∧
          wf.State = "ACTIVE" ∧ q.final.workflow = wf) ∧
      (∀ q k e, r.poll = some q → k < q.final.fetches →
        (exampleWorkflowsEnv.Get k (testCreateWorkflow_workflowName "wf" "p" "us-central1")).result
          = .error e →
        r.err = some (.wrapError ("service.Get.Do error: " ++ e.Error) e) ∧
        q.final.fetches = k + 1 ∧
        r.calls.count (.Get (testCreateWorkflow_workflowName "wf" "p" "us-central1"))
          = k + 1) :=
  C13_testCreateWorkflow_nil_only_after_active_fetch exampleWorkflowsEnv 0 301 "wf" "p"
    "us-central1" (by decide)

end GolangSamples
